import Mathlib

/-!
Shallow embedding of the connection-supervision and query fan-out engine of
the mcp-client repository, together with theorems settling the frozen claims.

Sources embedded:
- `src/services/mcp-client.ts` (the `MCPClient` class: connect / disconnect /
  markAsDisconnected / checkHealth / executeQuery / selectTool / mapParameters);
- `src/services/mcp-manager.ts` (the `MCPManager` class: addServer /
  initializeAllServers / determineRelevantServers / queryServers /
  markServerAsDisconnected / attemptSingleReconnection and the retry constants).

Modelling conventions:
- `await`-free pure data flow: each network operation's outcome is an input
  (an environment record), and a TypeScript method becomes a Lean function
  from (environment, state) to (result, state, fired callbacks).
- JavaScript objects used as parameter maps become association lists with
  JavaScript assignment semantics (overwrite in place, else append).
- Timestamps (`new Date()`) become `Nat` milliseconds supplied by the caller.
- `string.toLowerCase()` becomes a per-character lowering; `includes` becomes
  a list-infix test. Transport `close()` is modelled as always completing.
-/

/-- A JavaScript runtime value stored in a parameter object.  `undef` is the
JavaScript `undefined`; the remaining constructors are opaque defined values. -/
inductive JSVal where
  | undef : JSVal
  | str : String → JSVal
  | num : Int → JSVal
  | boolean : Bool → JSVal
deriving DecidableEq, Repr

/-- A JavaScript object used as a `Record<string, unknown>`: an association
list in property-insertion order with pairwise-distinct keys maintained by
`objSet`. -/
abbrev JSObj := List (String × JSVal)

/-- Property read `o[k]`: `none` means the key is absent (JavaScript would
also report `undefined`; absence and an explicit `undef` binding are kept
distinct here because `mapParameters` treats them identically anyway). -/
def objGet (o : JSObj) (k : String) : Option JSVal :=
  (o.find? (fun kv => kv.1 == k)).map (·.2)

/-- Property write `o[k] = v`: overwrite in place if the key exists
(JavaScript keeps the original insertion position), else append. -/
def objSet (o : JSObj) (k : String) (v : JSVal) : JSObj :=
  match o with
  | [] => [(k, v)]
  | kv :: rest => if kv.1 = k then (k, v) :: rest else kv :: objSet rest k v

/-- `ES Map.get`, over an association list in insertion order. -/
def mapGet {κ : Type} [DecidableEq κ] {α : Type} (m : List (κ × α)) (k : κ) : Option α :=
  (m.find? (fun kv => kv.1 = k)).map (·.2)

/-- `ES Map.set`: replace in place if present (keys stay unique), else append. -/
def mapSet {κ : Type} [DecidableEq κ] {α : Type} (m : List (κ × α)) (k : κ) (v : α) :
    List (κ × α) :=
  match m with
  | [] => [(k, v)]
  | kv :: rest => if kv.1 = k then (k, v) :: rest else kv :: mapSet rest k v

/-- `ES Map.delete`. -/
def mapDelete {κ : Type} [DecidableEq κ] {α : Type} (m : List (κ × α)) (k : κ) :
    List (κ × α) :=
  m.filter (fun kv => kv.1 ≠ k)

/-- Whether `n` occurs as the first elements of `h` (helper for the
substring test behind JavaScript `String.prototype.includes`). -/
def startsWithSeq (n h : List Char) : Bool :=
  match n, h with
  | [], _ => true
  | _ :: _, [] => false
  | a :: n', b :: h' => a == b && startsWithSeq n' h'

/-- Whether `n` occurs contiguously anywhere in `h`. -/
def containsSeq (n : List Char) : List Char → Bool
  | [] => n.isEmpty
  | c :: rest => startsWithSeq n (c :: rest) || containsSeq n rest

/-- JavaScript `hay.includes(needle)`. -/
def jsIncludes (hay needle : String) : Bool :=
  containsSeq needle.data hay.data

/-- JavaScript `s.toLowerCase()`, as a character list. -/
def jsLower (s : String) : List Char := s.data.map Char.toLower

/-- JavaScript `hay.toLowerCase().includes(needle.toLowerCase())`. -/
def jsIncludesLower (hay needle : String) : Bool :=
  containsSeq (jsLower needle) (jsLower hay)

/-- Template-literal rendering of a possibly-`undefined` string. -/
def jsStr : Option String → String
  | some s => s
  | none => "undefined"

/-- `MCPToolMapping` from `src/types/index.ts`: `parameterMapping` is kept in
`Object.entries` order as (standardParamName, toolParamName) pairs. -/
structure MCPToolMapping where
  toolName : String
  parameterMapping : List (String × String)
deriving DecidableEq, Repr

/-- `MCPServerConfig` from `src/types/index.ts`.  `name` and `url` are
`Option` so that a runtime descriptor missing either field (the invalid-
descriptor case of the spec's error-handling section) is representable. -/
structure MCPServerConfig where
  name : Option String
  url : Option String
  description : String
  keywords : List String
  tools : Option (List MCPToolMapping)
  defaultTool : Option String
deriving DecidableEq, Repr

/-- A discovered tool (`MCPTool` from `src/types/index.ts`; the input schema
is irrelevant to every claim and omitted). -/
structure MCPTool where
  name : String
deriving DecidableEq, Repr

/-- `MCPQueryResult` from `src/types/index.ts`; `data` is opaque. -/
structure MCPQueryResult where
  success : Bool
  data : Option Nat := none
  error : Option String := none
  serverName : Option String := none
  toolUsed : Option String := none
deriving DecidableEq, Repr

/-- The mutable fields of one `MCPClient` relevant to the claims:
`hasClient` is `this.client !== undefined`, `isConnected` is
`this.isConnected`.  (`lastHealthCheck` affects no claim and is omitted.) -/
structure MCPClientState where
  hasClient : Bool
  isConnected : Bool
deriving DecidableEq, Repr

/-- Client state right after `new MCPClient(config)`. -/
def freshClientState : MCPClientState := ⟨false, false⟩

/-- A fired connection callback (`onDisconnect` / `onReconnect`), carrying
`this.config.name`. -/
inductive CEvent where
  | onDisconnect : Option String → CEvent
  | onReconnect : Option String → CEvent
deriving DecidableEq, Repr

/-- Outcome environment of one `connect()` call: whether `new URL(url)`
succeeds, whether the Streamable-HTTP transport connects, whether the SSE
transport connects, and the rendered message of the error thrown when both
transports fail. -/
structure ConnectEnv where
  urlOk : Bool
  httpOk : Bool
  sseOk : Bool
  errMsg : String
deriving DecidableEq, Repr

/-- Result of one `connect()` call: the state it leaves behind, whether the
promise rejected, and the callbacks it fired. -/
structure ConnectOut where
  st : MCPClientState
  threw : Bool
  events : List CEvent
deriving DecidableEq, Repr

namespace MCPClient

/-- `MCPClient.connect` (mcp-client.ts).  `new URL` throws before any field
is touched; each transport attempt assigns `this.client` before awaiting, so
a failed attempt still leaves a (dead) handle behind;
`wasDisconnected = !this.isConnected` is read before `this.isConnected = true`,
and `onReconnect` fires only on that edge. -/
def connect (cfg : MCPServerConfig) (env : ConnectEnv) (s : MCPClientState) : ConnectOut :=
  if ¬ env.urlOk then ⟨s, true, []⟩
  else if env.httpOk then
    ⟨⟨true, true⟩, false, if ¬ s.isConnected then [.onReconnect cfg.name] else []⟩
  else if env.sseOk then
    ⟨⟨true, true⟩, false, if ¬ s.isConnected then [.onReconnect cfg.name] else []⟩
  else
    ⟨⟨true, s.isConnected⟩, true, []⟩

/-- `MCPClient.disconnect` (mcp-client.ts): only acts when `this.client` is
set; fires `onDisconnect` only when the prior `isConnected` was true. -/
def disconnect (cfg : MCPServerConfig) (s : MCPClientState) :
    MCPClientState × List CEvent :=
  if s.hasClient then
    (⟨false, false⟩, if s.isConnected then [.onDisconnect cfg.name] else [])
  else (s, [])

/-- `MCPClient.markAsDisconnected` (mcp-client.ts): guarded on
`this.isConnected`. -/
def markAsDisconnected (cfg : MCPServerConfig) (s : MCPClientState) :
    MCPClientState × List CEvent :=
  if s.isConnected then (⟨false, false⟩, [.onDisconnect cfg.name]) else (s, [])

/-- `MCPClient.checkHealth` (mcp-client.ts): `listOk` is the outcome of the
probing `listTools()` call. -/
def checkHealth (cfg : MCPServerConfig) (listOk : Bool) (s : MCPClientState) :
    Bool × MCPClientState × List CEvent :=
  if ¬ s.hasClient ∨ ¬ s.isConnected then (false, s, [])
  else if listOk then (true, s, [])
  else
    let m := markAsDisconnected cfg s
    (false, m.1, m.2)

/-- `MCPClient.selectTool` (mcp-client.ts), translated branch for branch. -/
def findMappedTool (configTools : List MCPToolMapping) (avail : List MCPTool) :
    Option MCPTool :=
  match configTools with
  | [] => none
  | ct :: rest =>
    match avail.find? (fun t => t.name == ct.toolName) with
    | some t => some t
    | none => findMappedTool rest avail

/-- `MCPClient.selectTool` (mcp-client.ts): configured mappings in declaration
order, then `defaultTool`, then the first discovered tool; `null` when the
discovered list is empty. -/
def selectTool (cfg : MCPServerConfig) (availableTools : List MCPTool) : Option MCPTool :=
  if availableTools.isEmpty then none
  else
    let viaMapping :=
      match cfg.tools with
      | some cts => if cts.length > 0 then findMappedTool cts availableTools else none
      | none => none
    match viaMapping with
    | some t => some t
    | none =>
      match cfg.defaultTool with
      | some dt =>
        match availableTools.find? (fun t => t.name == dt) with
        | some t => some t
        | none => availableTools.head?
      | none => availableTools.head?

/-- `MCPClient.mapParameters` (mcp-client.ts).  First pass: each mapping entry
whose standard parameter is present with a defined value writes the value
under the tool parameter name.  Second pass: every input key not among the
mapping's standard names is copied through (defined or not). -/
def mapParameters (cfg : MCPServerConfig) (toolName : String) (parameters : JSObj) : JSObj :=
  match cfg.tools with
  | none => parameters
  | some cts =>
    match cts.find? (fun t => t.toolName == toolName) with
    | none => parameters
    | some toolConfig =>
      let phase1 := toolConfig.parameterMapping.foldl
        (fun acc p =>
          match objGet parameters p.1 with
          | some v => if v ≠ JSVal.undef then objSet acc p.2 v else acc
          | none => acc) ([] : JSObj)
      parameters.foldl
        (fun acc kv =>
          if (toolConfig.parameterMapping.map (·.1)).contains kv.1 then acc
          else objSet acc kv.1 kv.2) phase1

/-- The connection-class error-text classifier inside `executeQuery`'s catch
block (mcp-client.ts). -/
def isConnectionErrorMsg (m : String) : Bool :=
  jsIncludes m "not connected" || jsIncludes m "connection" ||
  jsIncludes m "ECONNREFUSED" || jsIncludes m "ENOTFOUND" ||
  jsIncludes m "timeout" || jsIncludes m "disconnected"

/-- Outcome environment of one `executeQuery` call: the lazy `connect()`
environment, the `listTools()` outcome (`Except.error` = the promise
rejected with that message; `Except.ok none` = resolved without a `tools`
field), and the `callTool` outcome. -/
structure QueryEnv where
  connectEnv : ConnectEnv
  listToolsRes : Except String (Option (List MCPTool))
  callToolRes : Except String Nat
deriving Repr

/-- The catch block of `executeQuery` (mcp-client.ts): classify the message,
transition via `markAsDisconnected` iff connection-class, and return a
structured failure result. -/
def execCatch (cfg : MCPServerConfig) (msg : String) (s : MCPClientState) :
    MCPQueryResult × MCPClientState × List CEvent :=
  let res : MCPQueryResult :=
    { success := false
      error := some ("Query failed for " ++ jsStr cfg.name ++ ": " ++ msg)
      serverName := cfg.name }
  if isConnectionErrorMsg msg then
    let m := markAsDisconnected cfg s
    (res, m.1, m.2)
  else (res, s, [])

/-- The `try` body of `executeQuery` (mcp-client.ts), entered with a live
connection: list tools, select a tool, map parameters, invoke. -/
def execBody (cfg : MCPServerConfig) (env : QueryEnv) (parameters : JSObj)
    (s : MCPClientState) : MCPQueryResult × MCPClientState × List CEvent :=
  match env.listToolsRes with
  | .error msg => execCatch cfg msg s
  | .ok none =>
    ({ success := false
       error := some ("Failed to list tools from " ++ jsStr cfg.name)
       serverName := cfg.name }, s, [])
  | .ok (some tools) =>
    match selectTool cfg tools with
    | none =>
      ({ success := false
         error := some ("No suitable tools found in " ++ jsStr cfg.name ++
           ". Available tools: " ++ String.intercalate ", " (tools.map (·.name)))
         serverName := cfg.name }, s, [])
    | some tool =>
      let _mapped := mapParameters cfg tool.name parameters
      match env.callToolRes with
      | .ok d =>
        ({ success := true, data := some d, serverName := cfg.name
           toolUsed := some tool.name }, s, [])
      | .error msg => execCatch cfg msg s

/-- `MCPClient.executeQuery` (mcp-client.ts): lazy `connect()` when not
connected (a rejected connect returns a structured failure), then the body. -/
def executeQuery (cfg : MCPServerConfig) (env : QueryEnv) (parameters : JSObj)
    (s : MCPClientState) : MCPQueryResult × MCPClientState × List CEvent :=
  if ¬ s.isConnected ∨ ¬ s.hasClient then
    let c := connect cfg env.connectEnv s
    if c.threw then
      ({ success := false
         error := some ("Failed to connect to " ++ jsStr cfg.name ++ ": " ++
           env.connectEnv.errMsg)
         serverName := cfg.name }, c.st, c.events)
    else
      let r := execBody cfg env parameters c.st
      (r.1, r.2.1, c.events ++ r.2.2)
  else execBody cfg env parameters s

end MCPClient

/-- `ReconnectionState` from `src/services/mcp-manager.ts`. -/
structure ReconnectionState where
  serverName : Option String
  lastAttempt : Nat
  attemptCount : Nat
  nextRetryDelay : Nat
deriving DecidableEq, Repr

/-- `INITIAL_RETRY_DELAY` (mcp-manager.ts). -/
def INITIAL_RETRY_DELAY : Nat := 5000

/-- `MAX_RETRY_DELAY` (mcp-manager.ts). -/
def MAX_RETRY_DELAY : Nat := 300000

/-- One registered client as stored in the manager's `clients` map:
its (immutable) config plus its mutable state. -/
structure ClientObj where
  config : MCPServerConfig
  st : MCPClientState
deriving DecidableEq, Repr

/-- The manager's `clients` map (insertion order, unique keys). -/
abbrev Registry := List (Option String × ClientObj)

/-- The manager's `disconnectedServers` map. -/
abbrev RecMap := List (Option String × ReconnectionState)

namespace MCPManager

/-- `MCPManager.addServer` (mcp-manager.ts): build a fresh client, wire the
callbacks (implicit here: the step machine below interprets every fired
callback), and `clients.set(config.name, client)`.  No validation, no other
state is touched, and no callback fires. -/
def addServer (cfg : MCPServerConfig) (clients : Registry) : Registry :=
  mapSet clients cfg.name ⟨cfg, freshClientState⟩

/-- `MCPManager.markServerAsDisconnected` (mcp-manager.ts): enroll with
`attemptCount = 0` and the initial delay unless already enrolled. -/
def markServerAsDisconnected (name : Option String) (now : Nat) (recs : RecMap) : RecMap :=
  if (mapGet recs name).isSome then recs
  else mapSet recs name ⟨name, now, 0, INITIAL_RETRY_DELAY⟩

/-- The failure branch of `MCPManager.attemptSingleReconnection`
(mcp-manager.ts): increment the count, recompute the capped exponential
delay, stamp the attempt time. -/
def reconnectFailStep (st : ReconnectionState) (now : Nat) : ReconnectionState :=
  { serverName := st.serverName
    lastAttempt := now
    attemptCount := st.attemptCount + 1
    nextRetryDelay := min (INITIAL_RETRY_DELAY * 2 ^ (st.attemptCount + 1 - 1)) MAX_RETRY_DELAY }

/-- `MCPManager.determineRelevantServers` (mcp-manager.ts): keep every client
one of whose configured keywords occurs (case-insensitively) inside the
message; if none matches, fall back to every currently connected client. -/
def determineRelevantServers (message : String) (clients : List ClientObj) :
    List ClientObj :=
  let relevantClients := clients.filter
    (fun c => c.config.keywords.any (fun kw => jsIncludesLower message kw))
  if relevantClients.isEmpty then clients.filter (fun c => c.st.isConnected)
  else relevantClients

/-- `extractQueryInfo` (mcp-manager.ts): `companyName || undefined`, and
`queryType = companyName ? 'company' : 'general'` (the empty string is
falsy).  `true` means `'company'`. -/
def extractQueryType (llmCompanyName : Option String) : Option String × Bool :=
  match llmCompanyName with
  | some c => if c = "" then (none, false) else (some c, true)
  | none => (none, false)

/-- The fan-out tail of `MCPManager.queryServers` (mcp-manager.ts):
`Promise.allSettled` over one promise per relevant client, then one result
per promise in the same order — a fulfilled promise yields its value, a
rejected one a synthetic failure tagged by index with that client's name.
`exec` is the per-client outcome (`Except.error` = the promise rejected). -/
def fanout (relevant : List ClientObj)
    (exec : ClientObj → Except String MCPQueryResult) : List MCPQueryResult :=
  relevant.map (fun c =>
    match exec c with
    | .ok r => r
    | .error e =>
      { success := false
        error := some ("Server query failed: " ++ e)
        serverName := c.config.name })

/-- `MCPManager.queryServers` (mcp-manager.ts): LLM extraction, the
`'general'` early return, routing, the empty-selection synthetic result, the
(unreachable) missing-company re-check, then the concurrent fan-out. -/
def queryServers (message : String) (llmCompanyName : Option String)
    (clients : List ClientObj) (exec : ClientObj → Except String MCPQueryResult) :
    List MCPQueryResult :=
  let extracted := extractQueryType llmCompanyName
  if extracted.2 = false then
    [{ success := false
       error := some "Could not extract a company name from the message."
       serverName := some "query-processor" }]
  else
    let relevantServers := determineRelevantServers message clients
    if relevantServers.isEmpty then
      [{ success := false
         error := some "No relevant MCP servers available."
         serverName := some "server-manager" }]
    else
      match extracted.1 with
      | none =>
        [{ success := false
           error := some "No company name found in query"
           serverName := some "system" }]
      | some _ => fanout relevantServers exec

end MCPManager

namespace MCPManager

/-- Record after the `k`-th consecutive failed scheduled reconnection
attempt, starting from the record `markServerAsDisconnected` creates at time
`t 0` (attempt `k` happens at time `t k`). -/
def recAfter (name : Option String) (t : Nat → Nat) : Nat → ReconnectionState
  | 0 => ⟨name, t 0, 0, INITIAL_RETRY_DELAY⟩
  | k + 1 => reconnectFailStep (recAfter name t k) (t (k + 1))

/-- Manager state for the supervision lifecycle.  `claimFailedSince` and
`enrolledFailSince` are specification-tracking ghost fields, not program
state: `claimFailedSince n` records whether server `n` has failed in any way
(including a failed lazy connect inside `executeQuery`) since its last
successful connect; `enrolledFailSince n` records whether it has, since its
last successful connect, lost an established connection or failed a connect
attempt made by `initializeAllServers` or the reconnection scheduler. -/
structure MgrState where
  clients : Registry
  disconnectedServers : RecMap
  claimFailedSince : Option String → Bool
  enrolledFailSince : Option String → Bool

/-- The manager before any registration. -/
def initialMgr : MgrState :=
  ⟨[], [], fun _ => false, fun _ => false⟩

/-- Pointwise update of a ghost flag. -/
def setFlag (f : Option String → Bool) (n : Option String) (b : Bool) :
    Option String → Bool :=
  fun m => if m = n then b else f m

/-- The manager's wired connection callbacks (mcp-manager.ts `addServer`):
`onDisconnect` runs `markServerAsDisconnected`, `onReconnect` runs
`disconnectedServers.delete`.  Both ghost flags follow: a lost connection is
a failure of both kinds, a successful reconnect clears both. -/
def applyCallbacks (now : Nat) (s : MgrState) (evs : List CEvent) : MgrState :=
  evs.foldl
    (fun st ev =>
      match ev with
      | .onDisconnect n =>
        { st with
          disconnectedServers := markServerAsDisconnected n now st.disconnectedServers
          claimFailedSince := setFlag st.claimFailedSince n true
          enrolledFailSince := setFlag st.enrolledFailSince n true }
      | .onReconnect n =>
        { st with
          disconnectedServers := mapDelete st.disconnectedServers n
          claimFailedSince := setFlag st.claimFailedSince n false
          enrolledFailSince := setFlag st.enrolledFailSince n false })
    s

/-- One observable event of the supervision lifecycle, at the granularity of
the manager methods that touch the registry or the reconnection records:
- `add`: one `addServer` call;
- `initConnect`: the per-client branch of `initializeAllServers` (run once at
  startup, so the client it reaches is still disconnected);
- `queryExec`: one `executeQuery` dispatched by `queryServers`;
- `healthCheck`: one probe of `performHealthChecks` (which only probes
  currently connected clients);
- `retryTick`: one due `attemptSingleReconnection` of `attemptReconnections`.
Shutdown (`disconnectAllServers`) ends the lifecycle and is outside this
operating-phase model. -/
inductive MEv where
  | add : MCPServerConfig → MEv
  | initConnect : Option String → ConnectEnv → Nat → MEv
  | queryExec : Option String → MCPClient.QueryEnv → JSObj → Nat → MEv
  | healthCheck : Option String → Bool → Nat → MEv
  | retryTick : Option String → ConnectEnv → Nat → MEv

/-- Step function of the lifecycle model; returns the successor state and
the callbacks fired during the event.  Guards mirror the call sites: events
on unregistered names and scheduler ticks without a due record do nothing. -/
def stepE (s : MgrState) (e : MEv) : MgrState × List CEvent :=
  match e with
  | .add cfg => ({ s with clients := addServer cfg s.clients }, [])
  | .initConnect n env now =>
    match mapGet s.clients n with
    | none => (s, [])
    | some c =>
      if c.st.isConnected then (s, [])
      else
        let o := MCPClient.connect c.config env c.st
        let s1 := { s with clients := mapSet s.clients n ⟨c.config, o.st⟩ }
        if o.threw then
          -- catch: console.warn, then markServerAsDisconnected(name)
          ({ s1 with
             disconnectedServers := markServerAsDisconnected n now s1.disconnectedServers
             claimFailedSince := setFlag s1.claimFailedSince n true
             enrolledFailSince := setFlag s1.enrolledFailSince n true }, o.events)
        else
          -- success: callbacks fire, then disconnectedServers.delete(name)
          let s2 := applyCallbacks now s1 o.events
          ({ s2 with
             disconnectedServers := mapDelete s2.disconnectedServers n
             claimFailedSince := setFlag s2.claimFailedSince n false
             enrolledFailSince := setFlag s2.enrolledFailSince n false }, o.events)
  | .queryExec n env ps now =>
    match mapGet s.clients n with
    | none => (s, [])
    | some c =>
      let r := MCPClient.executeQuery c.config env ps c.st
      let s1 := { s with clients := mapSet s.clients n ⟨c.config, r.2.1⟩ }
      let s2 := applyCallbacks now s1 r.2.2
      -- ghost only: a rejected lazy connect is a failure of the claim's kind
      -- (the code returns a failure result without enrolling the server)
      ({ s2 with claimFailedSince :=
          if (¬ c.st.isConnected ∨ ¬ c.st.hasClient) ∧
              (MCPClient.connect c.config env.connectEnv c.st).threw then
            setFlag s2.claimFailedSince n true
          else s2.claimFailedSince }, r.2.2)
  | .healthCheck n listOk now =>
    match mapGet s.clients n with
    | none => (s, [])
    | some c =>
      if ¬ c.st.isConnected then (s, [])
      else
        let r := MCPClient.checkHealth c.config listOk c.st
        let s1 := { s with clients := mapSet s.clients n ⟨c.config, r.2.1⟩ }
        (applyCallbacks now s1 r.2.2, r.2.2)
  | .retryTick n env now =>
    match mapGet s.disconnectedServers n with
    | none => (s, [])
    | some rec =>
      if now < rec.lastAttempt + rec.nextRetryDelay then (s, [])
      else
        match mapGet s.clients n with
        | none =>
          ({ s with disconnectedServers := mapDelete s.disconnectedServers n }, [])
        | some c =>
          let o := MCPClient.connect c.config env c.st
          let s1 := { s with clients := mapSet s.clients n ⟨c.config, o.st⟩ }
          if o.threw then
            ({ s1 with
               disconnectedServers := mapSet s1.disconnectedServers n
                 (reconnectFailStep rec now)
               claimFailedSince := setFlag s1.claimFailedSince n true
               enrolledFailSince := setFlag s1.enrolledFailSince n true }, o.events)
          else
            let s2 := applyCallbacks now s1 o.events
            ({ s2 with
               disconnectedServers := mapDelete s2.disconnectedServers n
               claimFailedSince := setFlag s2.claimFailedSince n false
               enrolledFailSince := setFlag s2.enrolledFailSince n false }, o.events)

/-- Successor state only. -/
def step (s : MgrState) (e : MEv) : MgrState := (stepE s e).1

/-- State after a sequence of lifecycle events from the initial manager. -/
def run (evs : List MEv) : MgrState := evs.foldl step initialMgr

end MCPManager

section MapLemmas

variable {κ : Type} [DecidableEq κ] {α : Type}

theorem mapGet_mapSet_self (m : List (κ × α)) (k : κ) (v : α) :
    mapGet (mapSet m k v) k = some v := by
  induction m with
  | nil => simp [mapGet, mapSet]
  | cons kv rest ih =>
    by_cases h : kv.1 = k
    · simp [mapGet, mapSet, h]
    · simp only [mapSet, if_neg h]
      simpa [mapGet, List.find?, h] using ih

theorem mapGet_mapSet_ne (m : List (κ × α)) (k k' : κ) (v : α) (h : k' ≠ k) :
    mapGet (mapSet m k v) k' = mapGet m k' :=
  by
  induction m with
  | nil => simp [mapGet, mapSet, List.find?, Ne.symm h]
  | cons kv rest ih =>
    by_cases hk : kv.1 = k
    · subst hk
      simp [mapGet, mapSet, List.find?, Ne.symm h]
    · simp only [mapSet, if_neg hk]
      by_cases hk' : kv.1 = k'
      · simp [mapGet, List.find?, hk']
      · simp only [mapGet, List.find?] at ih ⊢
        simpa [hk'] using ih

theorem mapGet_cons (kv : κ × α) (m : List (κ × α)) (k : κ) :
    mapGet (kv :: m) k = if kv.1 = k then some kv.2 else mapGet m k := by
  by_cases h : kv.1 = k <;> simp [mapGet, List.find?, h]

theorem mapDelete_cons (kv : κ × α) (m : List (κ × α)) (k : κ) :
    mapDelete (kv :: m) k = if kv.1 = k then mapDelete m k else kv :: mapDelete m k := by
  by_cases h : kv.1 = k <;> simp [mapDelete, List.filter_cons, h]

theorem mapGet_mapDelete_self (m : List (κ × α)) (k : κ) :
    mapGet (mapDelete m k) k = none := by
  induction m with
  | nil => rfl
  | cons kv rest ih =>
    rw [mapDelete_cons]
    by_cases h : kv.1 = k
    · simpa [h] using ih
    · rw [if_neg h, mapGet_cons, if_neg h]
      exact ih

theorem mapGet_mapDelete_ne (m : List (κ × α)) (k k' : κ) (h : k' ≠ k) :
    mapGet (mapDelete m k) k' = mapGet m k' := by
  induction m with
  | nil => rfl
  | cons kv rest ih =>
    rw [mapDelete_cons]
    by_cases hk : kv.1 = k
    · rw [if_pos hk, mapGet_cons, if_neg (by rw [hk]; exact fun e => h e.symm), ih]
    · rw [if_neg hk, mapGet_cons, mapGet_cons, ih]

end MapLemmas

namespace MCPManager

theorem setFlag_self (f : Option String → Bool) (n : Option String) (b : Bool) :
    setFlag f n b n = b := by simp [setFlag]

theorem setFlag_ne (f : Option String → Bool) (n m : Option String) (b : Bool)
    (h : m ≠ n) : setFlag f n b m = f m := by simp [setFlag, h]

/-- `markServerAsDisconnected` is a no-op on an already-enrolled server
(consecutive connection-class failures leave the record untouched). -/
theorem mark_noop_of_present (n : Option String) (now : Nat) (recs : RecMap)
    (h : (mapGet recs n).isSome) : markServerAsDisconnected n now recs = recs := by
  simp [markServerAsDisconnected, h]

theorem mark_get_self (n : Option String) (now : Nat) (recs : RecMap) :
    (mapGet (markServerAsDisconnected n now recs) n).isSome := by
  unfold markServerAsDisconnected
  by_cases h : (mapGet recs n).isSome
  · simpa [h]
  · simp [h, mapGet_mapSet_self]

theorem mark_get_ne (n m : Option String) (now : Nat) (recs : RecMap) (h : m ≠ n) :
    mapGet (markServerAsDisconnected n now recs) m = mapGet recs m := by
  unfold markServerAsDisconnected
  by_cases hp : (mapGet recs n).isSome
  · simp [hp]
  · simp [hp, mapGet_mapSet_ne _ _ _ _ h]

end MCPManager

namespace MCPManager

theorem recAfter_attemptCount (name : Option String) (t : Nat → Nat) :
    ∀ k, (recAfter name t k).attemptCount = k := by
  intro k
  induction k with
  | zero => rfl
  | succ j ih => simp [recAfter, reconnectFailStep, ih]

theorem recAfter_delay (name : Option String) (t : Nat → Nat) (k : Nat) :
    (recAfter name t (k + 1)).nextRetryDelay = min (5000 * 2 ^ k) 300000 := by
  simp [recAfter, reconnectFailStep, recAfter_attemptCount, INITIAL_RETRY_DELAY,
    MAX_RETRY_DELAY]

end MCPManager

/-- C3: after the `k`-th consecutive failed scheduled reconnection attempt
(`k ≥ 1`, attempt `i` happening at time `t i`), the record carries
`attemptCount = k`, `lastAttempt = t k`, and
`nextRetryDelay = min (5000 * 2 ^ (k - 1)) 300000`; the delay sequence is
monotonically non-decreasing and capped at the configured maximum. -/
theorem backoff_schedule (name : Option String) (t : Nat → Nat) :
    (∀ k, 1 ≤ k →
      (MCPManager.recAfter name t k).attemptCount = k ∧
      (MCPManager.recAfter name t k).lastAttempt = t k ∧
      (MCPManager.recAfter name t k).nextRetryDelay = min (5000 * 2 ^ (k - 1)) 300000) ∧
    (∀ k,
      (MCPManager.recAfter name t k).nextRetryDelay ≤
        (MCPManager.recAfter name t (k + 1)).nextRetryDelay) ∧
    (∀ k, (MCPManager.recAfter name t k).nextRetryDelay ≤ 300000) := by
  refine ⟨?_, ?_, ?_⟩
  · intro k hk
    obtain ⟨j, rfl⟩ : ∃ j, k = j + 1 := ⟨k - 1, (Nat.succ_pred_eq_of_pos hk).symm⟩
    refine ⟨MCPManager.recAfter_attemptCount name t (j + 1), ?_, ?_⟩
    · simp [MCPManager.recAfter, MCPManager.reconnectFailStep]
    · simpa using MCPManager.recAfter_delay name t j
  · intro k
    match k with
    | 0 =>
      have h0 : (MCPManager.recAfter name t 0).nextRetryDelay = 5000 := rfl
      rw [h0, MCPManager.recAfter_delay]
      simp
    | j + 1 =>
      rw [MCPManager.recAfter_delay, MCPManager.recAfter_delay]
      exact min_le_min
        (Nat.mul_le_mul_left _ (Nat.pow_le_pow_right (by norm_num) (Nat.le_succ j)))
        le_rfl
  · intro k
    match k with
    | 0 => norm_num [MCPManager.recAfter, INITIAL_RETRY_DELAY]
    | j + 1 =>
      rw [MCPManager.recAfter_delay]
      exact min_le_right _ _

/-- Witness for `backoff_schedule`: the concrete delay sequence for the first
eight consecutive failures is 5000, 10000, 20000, 40000, 80000, 160000,
300000, 300000, and the record after the third failure reads
`attemptCount = 3`, `lastAttempt = t 3 = 30`, `nextRetryDelay = 20000`. -/
theorem backoff_schedule_witness :
    (MCPManager.recAfter (some "srv") (fun i => 10 * i) 3).attemptCount = 3 ∧
    (MCPManager.recAfter (some "srv") (fun i => 10 * i) 3).lastAttempt = 30 ∧
    (MCPManager.recAfter (some "srv") (fun i => 10 * i) 3).nextRetryDelay =
      min (5000 * 2 ^ (3 - 1)) 300000 ∧
    ((List.range 8).map
      (fun i => (MCPManager.recAfter (some "srv") (fun j => 10 * j) (i + 1)).nextRetryDelay) =
      [5000, 10000, 20000, 40000, 80000, 160000, 300000, 300000]) := by
  have h := (backoff_schedule (some "srv") (fun i => 10 * i)).1 3 (by norm_num)
  exact ⟨h.1, h.2.1, h.2.2, by decide⟩

namespace MCPClient

theorem findMappedTool_eq_findSome (cts : List MCPToolMapping) (avail : List MCPTool) :
    findMappedTool cts avail =
      cts.findSome? (fun ct => avail.find? (fun t => t.name == ct.toolName)) := by
  induction cts with
  | nil => rfl
  | cons ct rest ih =>
    rw [findMappedTool, List.findSome?_cons]
    cases h : avail.find? (fun t => t.name == ct.toolName) <;> simp [h, ih]

end MCPClient

/-- Modelled from the claim's wording of the tool-selection policy, for
comparison with the source `selectTool`: (1) first declared mapping whose
tool name appears among the discovered tools selects that discovered tool;
(2) else `defaultTool` if discovered; (3) else the first discovered tool;
nothing qualifies on an empty discovery list. -/
def selectToolPolicy (cfg : MCPServerConfig) (avail : List MCPTool) : Option MCPTool :=
  if avail.isEmpty then none
  else
    match (cfg.tools.getD []).findSome?
        (fun ct => avail.find? (fun t => t.name == ct.toolName)) with
    | some t => some t
    | none =>
      match cfg.defaultTool with
      | some dt =>
        match avail.find? (fun t => t.name == dt) with
        | some t => some t
        | none => avail.head?
      | none => avail.head?

/-- C4: `selectTool` implements exactly the claimed precedence (configured
mappings in declaration order, then `defaultTool`, then first discovered
tool, nothing on an empty list), and with an empty discovered list
`executeQuery` returns a failure result listing the (no) available tool
names. -/
theorem tool_selection_policy (cfg : MCPServerConfig) (avail : List MCPTool)
    (env : MCPClient.QueryEnv) (ps : JSObj) (s : MCPClientState)
    (hconn : s.isConnected = true) (hhas : s.hasClient = true)
    (hlist : env.listToolsRes = .ok (some [])) :
    MCPClient.selectTool cfg avail = selectToolPolicy cfg avail ∧
    MCPClient.selectTool cfg [] = none ∧
    (MCPClient.executeQuery cfg env ps s).1 =
      { success := false
        error := some ("No suitable tools found in " ++ jsStr cfg.name ++
          ". Available tools: ")
        serverName := cfg.name } := by
  refine ⟨?_, rfl, ?_⟩
  · unfold MCPClient.selectTool selectToolPolicy
    by_cases he : avail.isEmpty
    · simp [he]
    · simp only [he, if_false]
      have hvia :
          (match cfg.tools with
            | some cts => if cts.length > 0 then MCPClient.findMappedTool cts avail else none
            | none => none) =
          (cfg.tools.getD []).findSome?
            (fun ct => avail.find? (fun t => t.name == ct.toolName)) := by
        match cfg.tools with
        | none => rfl
        | some [] => rfl
        | some (ct :: rest) =>
          simp [MCPClient.findMappedTool_eq_findSome]
      rw [hvia]
  · have hnc : ¬ (¬ s.isConnected = true ∨ ¬ s.hasClient = true) := by
      simp [hconn, hhas]
    simp only [MCPClient.executeQuery, hconn, hhas]
    simp [MCPClient.execBody, hlist, MCPClient.selectTool, String.intercalate]

/-- Witness for `tool_selection_policy`, with the spec's own precedence
examples: mapping naming `t2` beats discovery order, `defaultTool` is used
absent any mapping match, and the first discovered tool is the fallback. -/
theorem tool_selection_policy_witness :
    (MCPClient.selectTool
        ⟨some "s", some "u", "", [], some [⟨"t2", []⟩], none⟩ [⟨"t1"⟩, ⟨"t2"⟩] =
      some ⟨"t2"⟩) ∧
    (MCPClient.selectTool ⟨some "s", some "u", "", [], none, some "t2"⟩ [⟨"t1"⟩, ⟨"t2"⟩] =
      some ⟨"t2"⟩) ∧
    (MCPClient.selectTool ⟨some "s", some "u", "", [], none, none⟩ [⟨"t1"⟩, ⟨"t2"⟩] =
      some ⟨"t1"⟩) ∧
    (MCPClient.executeQuery
        ⟨some "s", some "u", "", [], none, none⟩
        ⟨⟨true, true, true, "e"⟩, .ok (some []), .ok 0⟩ [] ⟨true, true⟩).1 =
      { success := false
        error := some "No suitable tools found in s. Available tools: "
        serverName := some "s" } := by
  refine ⟨by decide, by decide, by decide, ?_⟩
  have h := tool_selection_policy ⟨some "s", some "u", "", [], none, none⟩ []
    ⟨⟨true, true, true, "e"⟩, .ok (some []), .ok 0⟩ [] ⟨true, true⟩ rfl rfl rfl
  exact h.2.2

/-- Keys of a parameter object, in order. -/
def objKeys (o : JSObj) : List String := o.map (·.1)

/-- The entries the first pass of `mapParameters` writes: one renamed entry,
in mapping-declaration order, per mapping pair whose standard parameter is
bound to a defined value. -/
def firedEntries (mp : List (String × String)) (ps : JSObj) : JSObj :=
  mp.filterMap (fun p =>
    match objGet ps p.1 with
    | some v => if v ≠ JSVal.undef then some (p.2, v) else none
    | none => none)

/-- The entries the second pass of `mapParameters` copies through: the input
entries, in input order, whose key is not a standard parameter of the
mapping. -/
def passedEntries (mp : List (String × String)) (ps : JSObj) : JSObj :=
  ps.filter (fun kv => ¬ (mp.map (·.1)).contains kv.1)

theorem objSet_append_of_not_mem (o : JSObj) (k : String) (v : JSVal)
    (h : k ∉ objKeys o) : objSet o k v = o ++ [(k, v)] := by
  induction o with
  | nil => rfl
  | cons kv rest ih =>
    simp only [objKeys, List.map_cons, List.mem_cons, not_or] at h
    simp only [objSet, if_neg (Ne.symm h.1), List.cons_append]
    rw [ih (by simpa [objKeys] using h.2)]

theorem objGet_eq_none_of_not_mem (o : JSObj) (k : String) (h : k ∉ objKeys o) :
    objGet o k = none := by
  induction o with
  | nil => rfl
  | cons kv rest ih =>
    simp only [objKeys, List.map_cons, List.mem_cons, not_or] at h
    simp only [objGet, List.find?]
    rw [beq_eq_false_iff_ne.mpr (Ne.symm h.1)]
    exact ih (by simpa [objKeys] using h.2)

theorem objGet_append_right (a b : JSObj) (k : String) (h : k ∉ objKeys a) :
    objGet (a ++ b) k = objGet b k := by
  induction a with
  | nil => rfl
  | cons kv rest ih =>
    simp only [objKeys, List.map_cons, List.mem_cons, not_or] at h
    simp only [List.cons_append, objGet, List.find?]
    rw [beq_eq_false_iff_ne.mpr (Ne.symm h.1)]
    exact ih (by simpa [objKeys] using h.2)

theorem firedEntries_keys_subset (mp : List (String × String)) (ps : JSObj) :
    ∀ k ∈ objKeys (firedEntries mp ps), k ∈ mp.map (·.2) := by
  intro k hk
  simp only [objKeys, List.mem_map] at hk
  obtain ⟨kv, hkv, rfl⟩ := hk
  simp only [firedEntries, List.mem_filterMap] at hkv
  obtain ⟨p, hp, hmatch⟩ := hkv
  simp only [List.mem_map]
  refine ⟨p, hp, ?_⟩
  cases hget : objGet ps p.1 with
  | none => simp [hget] at hmatch
  | some v =>
    simp only [hget] at hmatch
    by_cases hv : v = JSVal.undef
    · simp [hv] at hmatch
    · simp only [hv, ne_eq, not_false_iff, if_true, Option.some_inj] at hmatch
      exact congrArg Prod.fst hmatch

theorem phase1_eq (ps : JSObj) (mp : List (String × String)) (acc : JSObj)
    (hnd : (mp.map (·.2)).Nodup)
    (hdisj : ∀ t ∈ mp.map (·.2), t ∉ objKeys acc) :
    mp.foldl
      (fun acc p =>
        match objGet ps p.1 with
        | some v => if v ≠ JSVal.undef then objSet acc p.2 v else acc
        | none => acc) acc = acc ++ firedEntries mp ps := by
  induction mp generalizing acc with
  | nil => simp [firedEntries]
  | cons p rest ih =>
    simp only [List.map_cons, List.nodup_cons] at hnd
    have hdisjrest : ∀ t ∈ rest.map (·.2), t ∉ objKeys acc := by
      intro t ht
      exact hdisj t (by simp [ht])
    simp only [List.foldl_cons, firedEntries, List.filterMap_cons]
    cases hget : objGet ps p.1 with
    | none =>
      simpa [hget, firedEntries] using ih acc hnd.2 hdisjrest
    | some v =>
      by_cases hv : v = JSVal.undef
      · simpa [hget, hv, firedEntries] using ih acc hnd.2 hdisjrest
      · have hset : objSet acc p.2 v = acc ++ [(p.2, v)] :=
          objSet_append_of_not_mem acc p.2 v (hdisj p.2 (by simp))
        have hdisj' : ∀ t ∈ rest.map (·.2), t ∉ objKeys (acc ++ [(p.2, v)]) := by
          intro t ht
          simp only [objKeys, List.map_append, List.mem_append, List.map_cons,
            List.map_nil, List.mem_singleton, not_or]
          exact ⟨hdisjrest t ht, fun e => hnd.1 (e ▸ ht)⟩
        have hrec := ih (acc ++ [(p.2, v)]) hnd.2 hdisj'
        simp only [hget, hv, ne_eq, not_false_iff, if_true, hset, hrec,
          List.append_assoc, List.singleton_append]
        simp [firedEntries]

/-- The second-pass fold step of `mapParameters`, named for the proofs. -/
def phase2Step (mp : List (String × String)) (acc : JSObj) (kv : String × JSVal) : JSObj :=
  if (mp.map (·.1)).contains kv.1 then acc else objSet acc kv.1 kv.2

theorem passedEntries_cons (mp : List (String × String)) (kv : String × JSVal)
    (rest : JSObj) :
    passedEntries mp (kv :: rest) =
      if (mp.map (·.1)).contains kv.1 then passedEntries mp rest
      else kv :: passedEntries mp rest := by
  by_cases hm : kv.1 ∈ mp.map (·.1) <;>
    simp [passedEntries, List.filter_cons, hm]

theorem phase2_eq (mp : List (String × String)) (ps' : JSObj) (acc : JSObj)
    (hnd : (ps'.map (·.1)).Nodup)
    (hacc : ∀ kv ∈ ps', ¬ (mp.map (·.1)).contains kv.1 → kv.1 ∉ objKeys acc) :
    ps'.foldl (phase2Step mp) acc = acc ++ passedEntries mp ps' := by
  induction ps' generalizing acc with
  | nil => simp [passedEntries]
  | cons kv rest ih =>
    simp only [List.map_cons, List.nodup_cons] at hnd
    rw [List.foldl_cons, passedEntries_cons]
    by_cases hc : (mp.map (·.1)).contains kv.1
    · rw [if_pos hc, show phase2Step mp acc kv = acc from by
        unfold phase2Step; exact if_pos hc]
      exact ih acc hnd.2 (fun kv' h' => hacc kv' (by simp [h']))
    · have hset : objSet acc kv.1 kv.2 = acc ++ [(kv.1, kv.2)] :=
        objSet_append_of_not_mem acc kv.1 kv.2 (hacc kv (by simp) hc)
      have hstep : phase2Step mp acc kv = acc ++ [(kv.1, kv.2)] := by
        unfold phase2Step
        rw [if_neg hc, hset]
      have hacc' : ∀ kv' ∈ rest, ¬ (mp.map (·.1)).contains kv'.1 →
          kv'.1 ∉ objKeys (acc ++ [(kv.1, kv.2)]) := by
        intro kv' h' hc'
        simp only [objKeys, List.map_append, List.mem_append, List.map_cons,
          List.map_nil, List.mem_singleton, not_or]
        refine ⟨hacc kv' (by simp [h']) hc', ?_⟩
        intro e
        exact hnd.1 (by rw [← e]; exact List.mem_map_of_mem (·.1) h')
      rw [if_neg hc, hstep, ih (acc ++ [(kv.1, kv.2)]) hnd.2 hacc', List.append_assoc]
      simp

/-- The two passes of `mapParameters`, combined: under key cleanliness the
output is exactly the renamed defined entries (in mapping order) followed by
the untouched unmapped entries (in input order). -/
theorem mapParameters_characterization (cfg : MCPServerConfig) (toolName : String)
    (ps : JSObj) (cts : List MCPToolMapping) (tc : MCPToolMapping)
    (hcts : cfg.tools = some cts)
    (htc : cts.find? (fun t => t.toolName == toolName) = some tc)
    (H1 : (ps.map (·.1)).Nodup)
    (H2 : (tc.parameterMapping.map (·.2)).Nodup)
    (H3 : ∀ kv ∈ ps, ¬ (tc.parameterMapping.map (·.1)).contains kv.1 →
      kv.1 ∉ tc.parameterMapping.map (·.2)) :
    MCPClient.mapParameters cfg toolName ps =
      firedEntries tc.parameterMapping ps ++ passedEntries tc.parameterMapping ps := by
  unfold MCPClient.mapParameters
  rw [hcts]
  simp only [htc]
  have h1 := phase1_eq ps tc.parameterMapping [] H2 (by simp [objKeys])
  simp only [List.nil_append] at h1
  rw [h1]
  exact phase2_eq tc.parameterMapping ps (firedEntries tc.parameterMapping ps) H1
    (fun kv hkv hc hmem =>
      H3 kv hkv hc (firedEntries_keys_subset tc.parameterMapping ps kv.1 hmem))

theorem mem_objKeys_firedEntries (mp : List (String × String)) (ps : JSObj)
    (t' : String) (h : t' ∈ objKeys (firedEntries mp ps)) :
    ∃ p ∈ mp, p.2 = t' ∧ ∃ v, objGet ps p.1 = some v ∧ v ≠ JSVal.undef := by
  simp only [objKeys, List.mem_map] at h
  obtain ⟨kv, hkv, rfl⟩ := h
  simp only [firedEntries, List.mem_filterMap] at hkv
  obtain ⟨p, hp, hmatch⟩ := hkv
  refine ⟨p, hp, ?_⟩
  cases hget : objGet ps p.1 with
  | none => simp [hget] at hmatch
  | some v =>
    simp only [hget] at hmatch
    by_cases hv : v = JSVal.undef
    · simp [hv] at hmatch
    · simp only [hv, ne_eq, not_false_iff, if_true, Option.some_inj] at hmatch
      exact ⟨congrArg Prod.fst hmatch, v, rfl, hv⟩

theorem mem_objKeys_passedEntries (mp : List (String × String)) (ps : JSObj)
    (k' : String) (h : k' ∈ objKeys (passedEntries mp ps)) :
    ∃ kv ∈ ps, kv.1 = k' ∧ ¬ (mp.map (·.1)).contains kv.1 := by
  simp only [objKeys, List.mem_map] at h
  obtain ⟨kv, hkv, rfl⟩ := h
  simp only [passedEntries, List.mem_filter] at hkv
  refine ⟨kv, hkv.1, rfl, ?_⟩
  simpa using hkv.2

/-- The configuration used by the counterexample to the parameter-mapping
claim: the selected tool `t` maps standard parameter `a` to tool
parameter `b`. -/
def cfgParamCex : MCPServerConfig :=
  ⟨some "s", some "u", "", [], some [⟨"t", [("a", "b")]⟩], none⟩

/-- C5 counterexample: with mapping `a ↦ b` and the input binding `a` to
`undefined`, the produced arguments are empty — in particular `b` is *not*
bound (the claim, as stated, would bind `b` to the input's value), even
though `a` is present in the input map. -/
theorem parameter_mapping_cex :
    MCPClient.mapParameters cfgParamCex "t" [("a", JSVal.undef)] = [] ∧
    objGet (MCPClient.mapParameters cfgParamCex "t" [("a", JSVal.undef)]) "b" ≠
      some JSVal.undef ∧
    objGet [(("a" : String), JSVal.undef)] "a" = some JSVal.undef := by
  decide

/-- C5 (amended): with no mapping configured for the selected tool the
parameters pass through unchanged; with a configured mapping the invoked
arguments are exactly the renamed entries for mapped keys carrying *defined*
values (mapped keys bound to `undefined` are dropped) followed by the
unmapped entries, unchanged. -/
theorem parameter_mapping_behavior (cfg : MCPServerConfig) (toolName : String)
    (ps : JSObj) :
    (cfg.tools = none → MCPClient.mapParameters cfg toolName ps = ps) ∧
    (∀ cts, cfg.tools = some cts →
      cts.find? (fun x => x.toolName == toolName) = none →
      MCPClient.mapParameters cfg toolName ps = ps) ∧
    (∀ cts tc, cfg.tools = some cts →
      cts.find? (fun x => x.toolName == toolName) = some tc →
      (ps.map (·.1)).Nodup →
      (tc.parameterMapping.map (·.2)).Nodup →
      (∀ kv ∈ ps, ¬ (tc.parameterMapping.map (·.1)).contains kv.1 →
        kv.1 ∉ tc.parameterMapping.map (·.2)) →
      MCPClient.mapParameters cfg toolName ps =
        firedEntries tc.parameterMapping ps ++ passedEntries tc.parameterMapping ps) := by
  refine ⟨?_, ?_, ?_⟩
  · intro h
    unfold MCPClient.mapParameters
    rw [h]
  · intro cts hcts hfind
    unfold MCPClient.mapParameters
    rw [hcts]
    simp [hfind]
  · intro cts tc hcts htc h1 h2 h3
    exact mapParameters_characterization cfg toolName ps cts tc hcts htc h1 h2 h3

/-- Witness for `parameter_mapping_behavior`: mapping `company_name ↦ q`
renames the defined entry and passes the unmapped `extra` through. -/
theorem parameter_mapping_behavior_witness :
    MCPClient.mapParameters
        ⟨some "s", some "u", "", [], some [⟨"t", [("company_name", "q")]⟩], none⟩ "t"
        [("company_name", JSVal.str "ACME"), ("extra", JSVal.num 1)] =
      [("q", JSVal.str "ACME"), ("extra", JSVal.num 1)] := by
  have h := (parameter_mapping_behavior
    ⟨some "s", some "u", "", [], some [⟨"t", [("company_name", "q")]⟩], none⟩ "t"
    [("company_name", JSVal.str "ACME"), ("extra", JSVal.num 1)]).2.2
    [⟨"t", [("company_name", "q")]⟩] ⟨"t", [("company_name", "q")]⟩
    rfl rfl (by decide) (by decide) (by decide)
  rw [h]
  decide

/-- C9: a mapped input key bound to `undefined` is dropped entirely: the
invoked arguments bind neither the mapped tool parameter name nor the
original key. -/
theorem undefined_mapped_parameter_dropped (cfg : MCPServerConfig)
    (toolName : String) (ps : JSObj) (cts : List MCPToolMapping)
    (tc : MCPToolMapping) (k t : String)
    (hcts : cfg.tools = some cts)
    (htc : cts.find? (fun x => x.toolName == toolName) = some tc)
    (H1 : (ps.map (·.1)).Nodup)
    (H2 : (tc.parameterMapping.map (·.2)).Nodup)
    (H3 : ∀ kv ∈ ps, ¬ (tc.parameterMapping.map (·.1)).contains kv.1 →
      kv.1 ∉ tc.parameterMapping.map (·.2))
    (hk : (k, t) ∈ tc.parameterMapping)
    (hv : objGet ps k = some JSVal.undef)
    (hknt : k ∉ tc.parameterMapping.map (·.2)) :
    objGet (MCPClient.mapParameters cfg toolName ps) t = none ∧
    objGet (MCPClient.mapParameters cfg toolName ps) k = none := by
  rw [mapParameters_characterization cfg toolName ps cts tc hcts htc H1 H2 H3]
  have htmem : t ∈ tc.parameterMapping.map (·.2) := by
    exact List.mem_map_of_mem (·.2) hk
  have hkmem : k ∈ tc.parameterMapping.map (·.1) := by
    exact List.mem_map_of_mem (·.1) hk
  have htfired : t ∉ objKeys (firedEntries tc.parameterMapping ps) := by
    intro hmem
    obtain ⟨p, hp, hpt, v, hgv, hvne⟩ :=
      mem_objKeys_firedEntries tc.parameterMapping ps t hmem
    have : p = (k, t) :=
      List.inj_on_of_nodup_map H2 hp hk (by simpa using hpt)
    rw [this] at hgv
    simp only at hgv
    rw [hv] at hgv
    exact hvne (by injection hgv with e; exact e.symm)
  have htpassed : t ∉ objKeys (passedEntries tc.parameterMapping ps) := by
    intro hmem
    obtain ⟨kv, hkv, hkvt, hc⟩ :=
      mem_objKeys_passedEntries tc.parameterMapping ps t hmem
    exact H3 kv hkv hc (hkvt ▸ htmem)
  have hkfired : k ∉ objKeys (firedEntries tc.parameterMapping ps) := by
    intro hmem
    exact hknt (firedEntries_keys_subset tc.parameterMapping ps k hmem)
  have hkpassed : k ∉ objKeys (passedEntries tc.parameterMapping ps) := by
    intro hmem
    obtain ⟨kv, hkv, hkvk, hc⟩ :=
      mem_objKeys_passedEntries tc.parameterMapping ps k hmem
    exact hc (by simp [hkvk, hkmem])
  constructor
  · rw [objGet_append_right _ _ _ htfired]
    exact objGet_eq_none_of_not_mem _ _ htpassed
  · rw [objGet_append_right _ _ _ hkfired]
    exact objGet_eq_none_of_not_mem _ _ hkpassed

/-- The configuration used by the witness for the undefined-dropping
behavior: the selected tool `t` maps standard parameter `a` to tool
parameter `b`. -/
def cfgParamDrop : MCPServerConfig :=
  ⟨some "w", some "u", "", [], some [⟨"t", [("a", "b")]⟩], none⟩

/-- Witness for `undefined_mapped_parameter_dropped`: with mapping `a ↦ b`
and input `a ↦ undefined, c ↦ "x"`, the output binds neither `b` nor `a`,
and has strictly fewer keys than the input. -/
theorem undefined_mapped_parameter_dropped_witness :
    objGet (MCPClient.mapParameters cfgParamDrop "t"
      [("a", JSVal.undef), ("c", JSVal.str "x")]) "b" = none ∧
    objGet (MCPClient.mapParameters cfgParamDrop "t"
      [("a", JSVal.undef), ("c", JSVal.str "x")]) "a" = none ∧
    (MCPClient.mapParameters cfgParamDrop "t"
      [("a", JSVal.undef), ("c", JSVal.str "x")]).length <
      ([("a", JSVal.undef), ("c", JSVal.str "x")] : JSObj).length := by
  have h := undefined_mapped_parameter_dropped cfgParamDrop "t"
    [("a", JSVal.undef), ("c", JSVal.str "x")]
    [⟨"t", [("a", "b")]⟩] ⟨"t", [("a", "b")]⟩ "a" "b"
    rfl rfl (by decide) (by decide) (by decide) (by decide) (by decide) (by decide)
  exact ⟨h.1, h.2, by decide⟩

/-- Whether one client's configured keywords match the message, exactly as
`determineRelevantServers` tests it. -/
def keywordMatches (message : String) (c : ClientObj) : Bool :=
  c.config.keywords.any (fun kw => jsIncludesLower message kw)

theorem determineRelevantServers_eq (message : String) (clients : List ClientObj) :
    MCPManager.determineRelevantServers message clients =
      if (clients.filter (fun x => keywordMatches message x)).isEmpty
      then clients.filter (fun c => c.st.isConnected)
      else clients.filter (fun x => keywordMatches message x) := rfl

/-- C6: server selection returns exactly the registered clients with a
case-insensitive keyword/message substring match; when no client matches it
returns exactly the currently connected clients. -/
theorem routing_selection (message : String) (clients : List ClientObj)
    (c : ClientObj) :
    ((∃ c' ∈ clients, keywordMatches message c' = true) →
      (c ∈ MCPManager.determineRelevantServers message clients ↔
        c ∈ clients ∧ keywordMatches message c = true)) ∧
    ((∀ c' ∈ clients, keywordMatches message c' = false) →
      (c ∈ MCPManager.determineRelevantServers message clients ↔
        c ∈ clients ∧ c.st.isConnected = true)) := by
  constructor
  · rintro ⟨c', hc', hm⟩
    have hne : clients.filter (fun x => keywordMatches message x) ≠ [] := by
      intro hnil
      have := List.filter_eq_nil_iff.mp hnil c' hc'
      simp [hm] at this
    have hie : (clients.filter (fun x => keywordMatches message x)).isEmpty = false := by
      cases hh : clients.filter (fun x => keywordMatches message x) with
      | nil => exact absurd hh hne
      | cons a l => rfl
    rw [determineRelevantServers_eq, hie]
    simp [List.mem_filter]
  · intro hall
    have hnil : clients.filter (fun x => keywordMatches message x) = [] :=
      List.filter_eq_nil_iff.mpr (fun a ha => by simp [hall a ha])
    rw [determineRelevantServers_eq, hnil]
    simp [List.mem_filter]

/-- Server A of the spec's routing example. -/
def serverA : ClientObj :=
  ⟨⟨some "A", some "uA", "", ["sponsorship", "company"], none, none⟩, ⟨true, true⟩⟩

/-- Server B of the spec's routing example. -/
def serverB : ClientObj :=
  ⟨⟨some "B", some "uB", "", ["weather"], none, none⟩, ⟨true, true⟩⟩

/-- Witness for `routing_selection`, on the spec's concrete example: with
A = {sponsorship, company} and B = {weather}, the message "company" selects
exactly {A}, and the unmatched message "unrelated" falls back to all
connected servers {A, B}. -/
theorem routing_selection_witness :
    MCPManager.determineRelevantServers "company" [serverA, serverB] = [serverA] ∧
    MCPManager.determineRelevantServers "unrelated" [serverA, serverB] =
      [serverA, serverB] ∧
    serverA ∈ MCPManager.determineRelevantServers "company" [serverA, serverB] := by
  refine ⟨by decide, by decide, ?_⟩
  exact ((routing_selection "company" [serverA, serverB] serverA).1
    ⟨serverA, by decide, by decide⟩).mpr ⟨by decide, by decide⟩

/-- A runtime descriptor missing both `name` and `url`. -/
def invalidDescriptor : MCPServerConfig := ⟨none, none, "", [], none, none⟩

/-- C8 (divergence evidence): `addServer` performs no validation — a
descriptor missing both `name` and `url` is accepted into the registry
(stored under the key `undefined`) and the call completes normally; nothing
fails at registration time (`new URL(config.url)` only throws later, inside
`connect`). -/
theorem addServer_accepts_invalid_descriptor :
    MCPManager.addServer invalidDescriptor [] =
      [(none, ⟨invalidDescriptor, freshClientState⟩)] ∧
    mapGet (MCPManager.addServer invalidDescriptor []) none =
      some ⟨invalidDescriptor, freshClientState⟩ := by
  decide

/-- How many `onDisconnect` callbacks a callback trace carries. -/
def countDisconnects (evs : List CEvent) : Nat :=
  (evs.filter (fun e => match e with | .onDisconnect _ => true | _ => false)).length

/-- C7: starting Connected (with a live handle), two successive
`disconnect()` calls fire `onDisconnect` exactly once and the second call is
a no-op; a `connect()` call while already Connected leaves the state
Connected on every outcome and never fires `onReconnect`. -/
theorem lifecycle_idempotence (cfg : MCPServerConfig) (s : MCPClientState)
    (env : ConnectEnv) (hconn : s.isConnected = true) (hhas : s.hasClient = true) :
    (countDisconnects ((MCPClient.disconnect cfg s).2 ++
        (MCPClient.disconnect cfg (MCPClient.disconnect cfg s).1).2) = 1 ∧
      MCPClient.disconnect cfg (MCPClient.disconnect cfg s).1 =
        ((MCPClient.disconnect cfg s).1, [])) ∧
    ((MCPClient.connect cfg env s).st.isConnected = true ∧
      (MCPClient.connect cfg env s).events = []) := by
  constructor
  · constructor
    · simp [MCPClient.disconnect, hconn, hhas, countDisconnects]
    · simp [MCPClient.disconnect, hconn, hhas]
  · unfold MCPClient.connect
    by_cases hu : env.urlOk
    · by_cases hh : env.httpOk
      · simp [hu, hh, hconn]
      · by_cases hs : env.sseOk
        · simp [hu, hh, hs, hconn]
        · simp [hu, hh, hs, hconn]
    · simp [hu, hconn]

/-- Witness for `lifecycle_idempotence`: a concrete connected client, with a
connect environment in which both transports would fail. -/
theorem lifecycle_idempotence_witness :
    countDisconnects
        ((MCPClient.disconnect ⟨some "w7", some "u", "", [], none, none⟩ ⟨true, true⟩).2 ++
          (MCPClient.disconnect ⟨some "w7", some "u", "", [], none, none⟩
            (MCPClient.disconnect ⟨some "w7", some "u", "", [], none, none⟩
              ⟨true, true⟩).1).2) = 1 ∧
    (MCPClient.connect ⟨some "w7", some "u", "", [], none, none⟩
        ⟨true, false, false, "down"⟩ ⟨true, true⟩).st.isConnected = true ∧
    (MCPClient.connect ⟨some "w7", some "u", "", [], none, none⟩
        ⟨true, false, false, "down"⟩ ⟨true, true⟩).events = [] := by
  have h := lifecycle_idempotence ⟨some "w7", some "u", "", [], none, none⟩
    ⟨true, true⟩ ⟨true, false, false, "down"⟩ rfl rfl
  exact ⟨h.1.1, h.2.1, h.2.2⟩

namespace MCPClient

theorem execCatch_serverName (cfg : MCPServerConfig) (msg : String)
    (s : MCPClientState) : (execCatch cfg msg s).1.serverName = cfg.name := by
  unfold execCatch
  by_cases h : isConnectionErrorMsg msg <;> simp [h]

theorem execBody_serverName (cfg : MCPServerConfig) (env : QueryEnv) (ps : JSObj)
    (s : MCPClientState) : (execBody cfg env ps s).1.serverName = cfg.name := by
  cases hres : env.listToolsRes with
  | error msg => simp [execBody, hres, execCatch_serverName]
  | ok o =>
    cases o with
    | none => simp [execBody, hres]
    | some tools =>
      cases hsel : selectTool cfg tools with
      | none => simp [execBody, hres, hsel]
      | some tool =>
        cases hcall : env.callToolRes with
        | ok d => simp [execBody, hres, hsel, hcall]
        | error msg => simp [execBody, hres, hsel, hcall, execCatch_serverName]

/-- Every branch of `executeQuery` tags its result with `this.config.name`. -/
theorem executeQuery_serverName (cfg : MCPServerConfig) (env : QueryEnv) (ps : JSObj)
    (s : MCPClientState) : (executeQuery cfg env ps s).1.serverName = cfg.name := by
  unfold executeQuery
  by_cases hlazy : (¬ s.isConnected ∨ ¬ s.hasClient)
  · rw [if_pos hlazy]
    by_cases ht : (connect cfg env.connectEnv s).threw
    · simp [ht]
    · simp only [ht, if_false]
      exact execBody_serverName cfg env ps (connect cfg env.connectEnv s).st
  · rw [if_neg hlazy]
    exact execBody_serverName cfg env ps s

end MCPClient

namespace MCPManager

theorem queryServers_eq_fanout (message : String) (cn : String)
    (clients : List ClientObj) (exec : ClientObj → Except String MCPQueryResult)
    (hcn : cn ≠ "")
    (hne : determineRelevantServers message clients ≠ []) :
    queryServers message (some cn) clients exec =
      fanout (determineRelevantServers message clients) exec := by
  have hie : (determineRelevantServers message clients).isEmpty = false := by
    cases hh : determineRelevantServers message clients with
    | nil => exact absurd hh hne
    | cons a l => rfl
  unfold queryServers extractQueryType
  simp [hcn, hie]

theorem queryServers_empty (message : String) (cn : String)
    (clients : List ClientObj) (exec : ClientObj → Except String MCPQueryResult)
    (hcn : cn ≠ "")
    (hemp : determineRelevantServers message clients = []) :
    queryServers message (some cn) clients exec =
      [{ success := false, error := some "No relevant MCP servers available."
         serverName := some "server-manager" }] := by
  unfold queryServers extractQueryType
  simp [hcn, hemp]

end MCPManager

/-- C1: with a company name extracted, `queryServers` over a non-empty
selected set of N connections returns exactly N results, one per selected
connection in selection order, each tagged with that connection's server
name (a rejected per-server promise yields a synthetic failure tagged by
position); over an empty selected set it returns exactly the single
synthetic no-relevant-servers failure.  Both shapes are total values — no
branch throws. -/
theorem fanout_totality (message : String) (llm : Option String)
    (clients : List ClientObj) (exec : ClientObj → Except String MCPQueryResult)
    (cn : String) (hllm : llm = some cn) (hcn : cn ≠ "")
    (hexec : ∀ cl r, exec cl = .ok r → r.serverName = cl.config.name) :
    (MCPManager.determineRelevantServers message clients ≠ [] →
      (MCPManager.queryServers message llm clients exec).length =
        (MCPManager.determineRelevantServers message clients).length ∧
      ∀ i (h2 : i < (MCPManager.determineRelevantServers message clients).length),
        ∃ r, (MCPManager.queryServers message llm clients exec).get? i = some r ∧
          r.serverName =
            ((MCPManager.determineRelevantServers message clients).get
              ⟨i, h2⟩).config.name) ∧
    (MCPManager.determineRelevantServers message clients = [] →
      MCPManager.queryServers message llm clients exec =
        [{ success := false, error := some "No relevant MCP servers available."
           serverName := some "server-manager" }]) := by
  subst hllm
  constructor
  · intro hne
    have heq := MCPManager.queryServers_eq_fanout message cn clients exec hcn hne
    constructor
    · rw [heq]
      simp [MCPManager.fanout]
    · intro i h2
      refine ⟨(fun c =>
        match exec c with
        | .ok r => r
        | .error e =>
          { success := false
            error := some ("Server query failed: " ++ e)
            serverName := c.config.name })
        ((MCPManager.determineRelevantServers message clients).get ⟨i, h2⟩), ?_, ?_⟩
      · rw [heq]
        simp only [MCPManager.fanout, List.get?_eq_getElem?, List.getElem?_map]
        rw [List.getElem?_eq_getElem h2]
        simp [List.get_eq_getElem]
      · rw [List.get_eq_getElem]
        cases hx : exec ((MCPManager.determineRelevantServers message clients).get
            ⟨i, h2⟩) with
        | ok r =>
          rw [List.get_eq_getElem] at hx
          simp only [hx]
          exact hexec _ r hx
        | error e =>
          rw [List.get_eq_getElem] at hx
          simp [hx]
  · intro hemp
    exact MCPManager.queryServers_empty message cn clients exec hcn hemp

/-- First client of the fan-out witness. -/
def clientF1 : ClientObj :=
  ⟨⟨some "A1", some "u1", "", ["company"], none, none⟩, ⟨false, false⟩⟩

/-- Second client of the fan-out witness. -/
def clientF2 : ClientObj :=
  ⟨⟨some "A2", some "u2", "", ["company"], none, none⟩, ⟨false, false⟩⟩

/-- Witness for `fanout_totality`: with both selected promises rejecting
(M = N = 2), the call still returns exactly two failure results, tagged
"A1" then "A2" in selection order; with an empty registry it returns the
single synthetic no-relevant-servers result. -/
theorem fanout_totality_witness :
    (MCPManager.queryServers "company" (some "ACME") [clientF1, clientF2]
        (fun _ => Except.error "boom")).length = 2 ∧
    MCPManager.queryServers "zzz" (some "ACME") ([] : List ClientObj)
        (fun _ => Except.error "boom") =
      [{ success := false, error := some "No relevant MCP servers available."
         serverName := some "server-manager" }] ∧
    MCPManager.queryServers "company" (some "ACME") [clientF1, clientF2]
        (fun _ => Except.error "boom") =
      [{ success := false, error := some "Server query failed: boom"
         serverName := some "A1" },
       { success := false, error := some "Server query failed: boom"
         serverName := some "A2" }] := by
  have h1 := fanout_totality "company" (some "ACME") [clientF1, clientF2]
    (fun _ => Except.error "boom") "ACME" rfl (by decide)
    (fun cl r hr => Except.noConfusion hr)
  have h2 := fanout_totality "zzz" (some "ACME") ([] : List ClientObj)
    (fun _ => Except.error "boom") "ACME" rfl (by decide)
    (fun cl r hr => Except.noConfusion hr)
  refine ⟨?_, h2.2 (by decide), by decide⟩
  rw [(h1.1 (by decide)).1]
  decide

/-- C10: re-registering an existing name replaces only that stored client
(with a fresh, still-wired one); no callback fires, every other registry
entry is untouched, and the reconnection-record map — including any record
under that name — is kept verbatim, so subsequent scheduled retries for that
record look up the newly registered client. -/
theorem reregistration_frame (s : MCPManager.MgrState) (cfg : MCPServerConfig)
    (old : ClientObj) (hold : mapGet s.clients cfg.name = some old) :
    mapGet (MCPManager.stepE s (.add cfg)).1.clients cfg.name =
      some ⟨cfg, freshClientState⟩ ∧
    (∀ k, k ≠ cfg.name →
      mapGet (MCPManager.stepE s (.add cfg)).1.clients k = mapGet s.clients k) ∧
    (MCPManager.stepE s (.add cfg)).1.disconnectedServers = s.disconnectedServers ∧
    (MCPManager.stepE s (.add cfg)).2 = [] := by
  refine ⟨?_, ?_, rfl, rfl⟩
  · simp [MCPManager.stepE, MCPManager.addServer, mapGet_mapSet_self]
  · intro k hk
    simp [MCPManager.stepE, MCPManager.addServer, mapGet_mapSet_ne _ _ _ _ hk]

/-- The previously registered client of the re-registration witness:
connected, under name "A". -/
def oldClientW : ClientObj :=
  ⟨⟨some "A", some "u-old", "", ["old"], none, none⟩, ⟨true, true⟩⟩

/-- Manager state of the re-registration witness: "A" registered and
connected, and (separately) an enrolled reconnection record under "A". -/
def mgrStateW : MCPManager.MgrState :=
  ⟨[(some "A", oldClientW)], [(some "A", ⟨some "A", 0, 2, 10000⟩)],
    fun _ => false, fun _ => false⟩

/-- The replacing descriptor of the re-registration witness. -/
def newCfgW : MCPServerConfig := ⟨some "A", some "u-new", "", ["new"], none, none⟩

/-- Witness for `reregistration_frame`: replacing "A" stores the fresh
client, fires nothing, and keeps the existing record (attemptCount 2)
verbatim. -/
theorem reregistration_frame_witness :
    mapGet (MCPManager.stepE mgrStateW (.add newCfgW)).1.clients (some "A") =
      some ⟨newCfgW, freshClientState⟩ ∧
    (MCPManager.stepE mgrStateW (.add newCfgW)).1.disconnectedServers =
      [(some "A", ⟨some "A", 0, 2, 10000⟩)] ∧
    (MCPManager.stepE mgrStateW (.add newCfgW)).2 = [] := by
  have h := reregistration_frame mgrStateW newCfgW oldClientW rfl
  exact ⟨h.1, h.2.2.1, h.2.2.2⟩

/-- Whether a connect environment makes `connect()` resolve (some transport
attempt succeeds after a valid URL parse). -/
def connectSucceeds (env : ConnectEnv) : Prop :=
  env.urlOk = true ∧ (env.httpOk = true ∨ env.sseOk = true)

instance (env : ConnectEnv) : Decidable (connectSucceeds env) := by
  unfold connectSucceeds
  infer_instance

/-- Exhaustive outcome shape of one `connect()` call. -/
theorem connect_cases (cfg : MCPServerConfig) (env : ConnectEnv) (s : MCPClientState) :
    ((MCPClient.connect cfg env s).threw = true ∧
      (MCPClient.connect cfg env s).st.isConnected = s.isConnected ∧
      (MCPClient.connect cfg env s).events = [] ∧ ¬ connectSucceeds env) ∨
    ((MCPClient.connect cfg env s).threw = false ∧
      (MCPClient.connect cfg env s).st = ⟨true, true⟩ ∧ connectSucceeds env ∧
      (MCPClient.connect cfg env s).events =
        (if s.isConnected = false then [.onReconnect cfg.name] else [])) := by
  unfold MCPClient.connect connectSucceeds
  by_cases hu : env.urlOk
  · by_cases hh : env.httpOk
    · right
      refine ⟨by simp [hu, hh], by simp [hu, hh], ⟨hu, Or.inl hh⟩, ?_⟩
      by_cases hc : s.isConnected <;> simp [hu, hh, hc]
    · by_cases hs : env.sseOk
      · right
        refine ⟨by simp [hu, hh, hs], by simp [hu, hh, hs], ⟨hu, Or.inr hs⟩, ?_⟩
        by_cases hc : s.isConnected <;> simp [hu, hh, hs, hc]
      · left
        refine ⟨by simp [hu, hh, hs], by simp [hu, hh, hs], by simp [hu, hh, hs], ?_⟩
        simp [hu, hh, hs]
  · left
    refine ⟨by simp [hu], by simp [hu], by simp [hu], ?_⟩
    simp [hu]

/-- Exhaustive outcome shape of one `checkHealth()` probe started while
Connected. -/
theorem checkHealth_out (cfg : MCPServerConfig) (listOk : Bool) (s : MCPClientState)
    (hconn : s.isConnected = true) :
    ((MCPClient.checkHealth cfg listOk s).2.2 = [] ∧
      (MCPClient.checkHealth cfg listOk s).2.1.isConnected = true) ∨
    ((MCPClient.checkHealth cfg listOk s).2.2 = [.onDisconnect cfg.name] ∧
      (MCPClient.checkHealth cfg listOk s).2.1.isConnected = false) := by
  unfold MCPClient.checkHealth MCPClient.markAsDisconnected
  by_cases hhas : s.hasClient
  · by_cases hl : listOk
    · left
      simp [hhas, hl, hconn]
    · right
      simp [hhas, hl, hconn]
  · left
    simp [hhas, hconn]

/-- Exhaustive callback/connectivity shape of one `executeQuery()` call:
no callback (connectivity preserved), a pure disconnect edge, a pure lazy
reconnect edge, or a reconnect followed by a connection-class disconnect. -/
theorem executeQuery_out (cfg : MCPServerConfig) (env : MCPClient.QueryEnv)
    (ps : JSObj) (s : MCPClientState) :
    ((MCPClient.executeQuery cfg env ps s).2.2 = [] ∧
      (MCPClient.executeQuery cfg env ps s).2.1.isConnected = s.isConnected) ∨
    ((MCPClient.executeQuery cfg env ps s).2.2 = [.onDisconnect cfg.name] ∧
      (MCPClient.executeQuery cfg env ps s).2.1.isConnected = false ∧
      s.isConnected = true) ∨
    ((MCPClient.executeQuery cfg env ps s).2.2 = [.onReconnect cfg.name] ∧
      (MCPClient.executeQuery cfg env ps s).2.1.isConnected = true ∧
      s.isConnected = false ∧ connectSucceeds env.connectEnv) ∨
    ((MCPClient.executeQuery cfg env ps s).2.2 =
        [.onReconnect cfg.name, .onDisconnect cfg.name] ∧
      (MCPClient.executeQuery cfg env ps s).2.1.isConnected = false ∧
      s.isConnected = false ∧ connectSucceeds env.connectEnv) := by
  have hcatch : ∀ msg st,
      ((MCPClient.execCatch cfg msg st).2.2 = [] ∧
        (MCPClient.execCatch cfg msg st).2.1.isConnected = st.isConnected) ∨
      ((MCPClient.execCatch cfg msg st).2.2 = [.onDisconnect cfg.name] ∧
        (MCPClient.execCatch cfg msg st).2.1.isConnected = false ∧
        st.isConnected = true) := by
    intro msg st
    unfold MCPClient.execCatch MCPClient.markAsDisconnected
    by_cases hc : MCPClient.isConnectionErrorMsg msg
    · by_cases hst : st.isConnected
      · right
        simp [hc, hst]
      · left
        simp [hc, hst]
    · left
      simp [hc]
  have hbody : ∀ st,
      ((MCPClient.execBody cfg env ps st).2.2 = [] ∧
        (MCPClient.execBody cfg env ps st).2.1.isConnected = st.isConnected) ∨
      ((MCPClient.execBody cfg env ps st).2.2 = [.onDisconnect cfg.name] ∧
        (MCPClient.execBody cfg env ps st).2.1.isConnected = false ∧
        st.isConnected = true) := by
    intro st
    cases hres : env.listToolsRes with
    | error msg =>
      have := hcatch msg st
      simpa [MCPClient.execBody, hres] using this
    | ok o =>
      cases o with
      | none => left; simp [MCPClient.execBody, hres]
      | some tools =>
        cases hsel : MCPClient.selectTool cfg tools with
        | none => left; simp [MCPClient.execBody, hres, hsel]
        | some tool =>
          cases hcall : env.callToolRes with
          | ok d => left; simp [MCPClient.execBody, hres, hsel, hcall]
          | error msg =>
            have := hcatch msg st
            simpa [MCPClient.execBody, hres, hsel, hcall] using this
  unfold MCPClient.executeQuery
  by_cases hlazy : (¬ s.isConnected ∨ ¬ s.hasClient)
  · rw [if_pos hlazy]
    rcases connect_cases cfg env.connectEnv s with
      ⟨ht, hst, hev, _⟩ | ⟨ht, hst, hok, hev⟩
    · left
      simp [ht, hst, hev]
    · rw [if_neg (by simp [ht]), hst]
      by_cases hc : s.isConnected
      · rcases hbody ⟨true, true⟩ with ⟨he, hi⟩ | ⟨he, hi, hi2⟩
        · left
          simp [hev, hc, he, hi]
        · right; left
          simp [hev, hc, he, hi]
      · rcases hbody ⟨true, true⟩ with ⟨he, hi⟩ | ⟨he, hi, hi2⟩
        · right; right; left
          simp [hev, hc, he, hi, hok]
        · right; right; right
          simp [hev, hc, he, hi, hok]
  · rw [if_neg hlazy]
    rcases hbody s with ⟨he, hi⟩ | ⟨he, hi, hi2⟩
    · left
      exact ⟨he, hi⟩
    · right; left
      exact ⟨he, hi, hi2⟩

namespace MCPManager

theorem applyCallbacks_nil (now : Nat) (s : MgrState) :
    applyCallbacks now s [] = s := rfl

theorem applyCallbacks_disc (now : Nat) (s : MgrState) (n : Option String) :
    applyCallbacks now s [.onDisconnect n] =
      { s with
        disconnectedServers := markServerAsDisconnected n now s.disconnectedServers
        claimFailedSince := setFlag s.claimFailedSince n true
        enrolledFailSince := setFlag s.enrolledFailSince n true } := rfl

theorem applyCallbacks_reco (now : Nat) (s : MgrState) (n : Option String) :
    applyCallbacks now s [.onReconnect n] =
      { s with
        disconnectedServers := mapDelete s.disconnectedServers n
        claimFailedSince := setFlag s.claimFailedSince n false
        enrolledFailSince := setFlag s.enrolledFailSince n false } := rfl

theorem applyCallbacks_reco_disc (now : Nat) (s : MgrState) (n : Option String) :
    applyCallbacks now s [.onReconnect n, .onDisconnect n] =
      { s with
        disconnectedServers :=
          markServerAsDisconnected n now (mapDelete s.disconnectedServers n)
        claimFailedSince := setFlag (setFlag s.claimFailedSince n false) n true
        enrolledFailSince := setFlag (setFlag s.enrolledFailSince n false) n true } := rfl

theorem stepE_add (s : MgrState) (cfg : MCPServerConfig) :
    stepE s (.add cfg) = ({ s with clients := addServer cfg s.clients }, []) := rfl

theorem stepE_init_none (s : MgrState) (n : Option String) (env : ConnectEnv)
    (now : Nat) (h : mapGet s.clients n = none) :
    stepE s (.initConnect n env now) = (s, []) := by
  simp [stepE, h]

theorem stepE_init_connected (s : MgrState) (n : Option String) (env : ConnectEnv)
    (now : Nat) (c : ClientObj) (h : mapGet s.clients n = some c)
    (hc : c.st.isConnected = true) :
    stepE s (.initConnect n env now) = (s, []) := by
  simp [stepE, h, hc]

theorem stepE_init_threw (s : MgrState) (n : Option String) (env : ConnectEnv)
    (now : Nat) (c : ClientObj) (h : mapGet s.clients n = some c)
    (hc : c.st.isConnected = false)
    (ht : (MCPClient.connect c.config env c.st).threw = true) :
    stepE s (.initConnect n env now) =
      ({ clients := mapSet s.clients n ⟨c.config, (MCPClient.connect c.config env c.st).st⟩
         disconnectedServers := markServerAsDisconnected n now s.disconnectedServers
         claimFailedSince := setFlag s.claimFailedSince n true
         enrolledFailSince := setFlag s.enrolledFailSince n true },
       (MCPClient.connect c.config env c.st).events) := by
  simp [stepE, h, hc, ht]

theorem stepE_init_ok (s : MgrState) (n : Option String) (env : ConnectEnv)
    (now : Nat) (c : ClientObj) (h : mapGet s.clients n = some c)
    (hc : c.st.isConnected = false)
    (ht : (MCPClient.connect c.config env c.st).threw = false)
    (hev : (MCPClient.connect c.config env c.st).events = [.onReconnect n]) :
    stepE s (.initConnect n env now) =
      ({ clients := mapSet s.clients n ⟨c.config, (MCPClient.connect c.config env c.st).st⟩
         disconnectedServers := mapDelete (mapDelete s.disconnectedServers n) n
         claimFailedSince := setFlag (setFlag s.claimFailedSince n false) n false
         enrolledFailSince := setFlag (setFlag s.enrolledFailSince n false) n false },
       [.onReconnect n]) := by
  simp [stepE, h, hc, ht, hev, applyCallbacks]

theorem stepE_query (s : MgrState) (n : Option String) (env : MCPClient.QueryEnv)
    (ps : JSObj) (now : Nat) (c : ClientObj) (h : mapGet s.clients n = some c) :
    stepE s (.queryExec n env ps now) =
      ({ applyCallbacks now
          { s with clients :=
              mapSet s.clients n (ClientObj.mk c.config (MCPClient.executeQuery c.config env ps c.st).2.1) }
          (MCPClient.executeQuery c.config env ps c.st).2.2 with
        claimFailedSince :=
          if (¬ c.st.isConnected ∨ ¬ c.st.hasClient) ∧
              (MCPClient.connect c.config env.connectEnv c.st).threw then
            setFlag (applyCallbacks now
              { s with clients :=
                  mapSet s.clients n (ClientObj.mk c.config (MCPClient.executeQuery c.config env ps c.st).2.1) }
              (MCPClient.executeQuery c.config env ps c.st).2.2).claimFailedSince n true
          else
            (applyCallbacks now
              { s with clients :=
                  mapSet s.clients n (ClientObj.mk c.config (MCPClient.executeQuery c.config env ps c.st).2.1) }
              (MCPClient.executeQuery c.config env ps c.st).2.2).claimFailedSince },
       (MCPClient.executeQuery c.config env ps c.st).2.2) := by
  simp [stepE, h]

theorem stepE_health_none (s : MgrState) (n : Option String) (listOk : Bool)
    (now : Nat) (h : mapGet s.clients n = none) :
    stepE s (.healthCheck n listOk now) = (s, []) := by
  simp [stepE, h]

theorem stepE_health_disc (s : MgrState) (n : Option String) (listOk : Bool)
    (now : Nat) (c : ClientObj) (h : mapGet s.clients n = some c)
    (hc : c.st.isConnected = false) :
    stepE s (.healthCheck n listOk now) = (s, []) := by
  simp [stepE, h, hc]

theorem stepE_health_conn (s : MgrState) (n : Option String) (listOk : Bool)
    (now : Nat) (c : ClientObj) (h : mapGet s.clients n = some c)
    (hc : c.st.isConnected = true) :
    stepE s (.healthCheck n listOk now) =
      (applyCallbacks now
        { s with clients :=
            mapSet s.clients n ⟨c.config, (MCPClient.checkHealth c.config listOk c.st).2.1⟩ }
        (MCPClient.checkHealth c.config listOk c.st).2.2,
       (MCPClient.checkHealth c.config listOk c.st).2.2) := by
  simp [stepE, h, hc]

theorem stepE_retry_none (s : MgrState) (n : Option String) (env : ConnectEnv)
    (now : Nat) (h : mapGet s.disconnectedServers n = none) :
    stepE s (.retryTick n env now) = (s, []) := by
  simp [stepE, h]

theorem stepE_retry_notdue (s : MgrState) (n : Option String) (env : ConnectEnv)
    (now : Nat) (r : ReconnectionState) (h : mapGet s.disconnectedServers n = some r)
    (hdue : now < r.lastAttempt + r.nextRetryDelay) :
    stepE s (.retryTick n env now) = (s, []) := by
  simp [stepE, h, hdue]

theorem stepE_retry_noclient (s : MgrState) (n : Option String) (env : ConnectEnv)
    (now : Nat) (r : ReconnectionState) (h : mapGet s.disconnectedServers n = some r)
    (hdue : ¬ now < r.lastAttempt + r.nextRetryDelay)
    (hcl : mapGet s.clients n = none) :
    stepE s (.retryTick n env now) =
      ({ s with disconnectedServers := mapDelete s.disconnectedServers n }, []) := by
  simp [stepE, h, hdue, hcl]

theorem stepE_retry_threw (s : MgrState) (n : Option String) (env : ConnectEnv)
    (now : Nat) (r : ReconnectionState) (h : mapGet s.disconnectedServers n = some r)
    (hdue : ¬ now < r.lastAttempt + r.nextRetryDelay)
    (c : ClientObj) (hcl : mapGet s.clients n = some c)
    (ht : (MCPClient.connect c.config env c.st).threw = true) :
    stepE s (.retryTick n env now) =
      ({ clients := mapSet s.clients n ⟨c.config, (MCPClient.connect c.config env c.st).st⟩
         disconnectedServers := mapSet s.disconnectedServers n (reconnectFailStep r now)
         claimFailedSince := setFlag s.claimFailedSince n true
         enrolledFailSince := setFlag s.enrolledFailSince n true },
       (MCPClient.connect c.config env c.st).events) := by
  simp [stepE, h, hdue, hcl, ht]

theorem stepE_retry_ok (s : MgrState) (n : Option String) (env : ConnectEnv)
    (now : Nat) (r : ReconnectionState) (h : mapGet s.disconnectedServers n = some r)
    (hdue : ¬ now < r.lastAttempt + r.nextRetryDelay)
    (c : ClientObj) (hcl : mapGet s.clients n = some c)
    (ht : (MCPClient.connect c.config env c.st).threw = false)
    (hev : (MCPClient.connect c.config env c.st).events = [.onReconnect n]) :
    stepE s (.retryTick n env now) =
      ({ clients := mapSet s.clients n ⟨c.config, (MCPClient.connect c.config env c.st).st⟩
         disconnectedServers := mapDelete (mapDelete s.disconnectedServers n) n
         claimFailedSince := setFlag (setFlag s.claimFailedSince n false) n false
         enrolledFailSince := setFlag (setFlag s.enrolledFailSince n false) n false },
       [.onReconnect n]) := by
  simp [stepE, h, hdue, hcl, ht, hev, applyCallbacks]

end MCPManager

namespace MCPManager

/-- The inductive lifecycle invariant: a reconnection record exists exactly
for the servers whose enrolled-failure ghost is set; an enrolled server is
registered and Disconnected; and every stored client sits under its own
config name. -/
def LifeInv (s : MgrState) : Prop :=
  (∀ n, (mapGet s.disconnectedServers n).isSome ↔ s.enrolledFailSince n = true) ∧
  (∀ n, s.enrolledFailSince n = true →
    ∃ c, mapGet s.clients n = some c ∧ c.st.isConnected = false) ∧
  (∀ n c, mapGet s.clients n = some c → c.config.name = n)

theorem lifeInv_initial : LifeInv initialMgr := by
  refine ⟨fun n => by simp [initialMgr, mapGet], fun n h => by simp [initialMgr] at h,
    fun n c h => by simp [initialMgr, mapGet] at h⟩

/-- Invariant preservation, enrollment shape: the client at `n0` is replaced
by a disconnected one, the record map gains/keeps an entry at `n0` (others
untouched), and the enrolled ghost is raised at `n0`. -/
theorem lifeInv_enroll (s : MgrState) (n0 : Option String) (cfg0 : MCPServerConfig)
    (st0 : MCPClientState) (recs' : RecMap) (cf ef : Option String → Bool)
    (hInv : LifeInv s) (hname : cfg0.name = n0) (hstc : st0.isConnected = false)
    (hself : (mapGet recs' n0).isSome = true)
    (hother : ∀ m, m ≠ n0 → mapGet recs' m = mapGet s.disconnectedServers m)
    (hefself : ef n0 = true)
    (hefother : ∀ m, m ≠ n0 → ef m = s.enrolledFailSince m) :
    LifeInv { clients := mapSet s.clients n0 ⟨cfg0, st0⟩
              disconnectedServers := recs'
              claimFailedSince := cf
              enrolledFailSince := ef } := by
  obtain ⟨h1, h2, h3⟩ := hInv
  refine ⟨?_, ?_, ?_⟩
  · intro n
    by_cases hn : n = n0
    · subst hn
      simp [hself, hefself]
    · show (mapGet recs' n).isSome = true ↔ ef n = true
      rw [hother n hn, hefother n hn]
      exact h1 n
  · intro n hf
    replace hf : ef n = true := hf
    by_cases hn : n = n0
    · subst hn
      exact ⟨⟨cfg0, st0⟩, by simp [mapGet_mapSet_self], hstc⟩
    · rw [show ef n = s.enrolledFailSince n from hefother n hn] at hf
      obtain ⟨c, hc, hcc⟩ := h2 n hf
      refine ⟨c, ?_, hcc⟩
      show mapGet (mapSet s.clients n0 ⟨cfg0, st0⟩) n = some c
      rw [mapGet_mapSet_ne _ _ _ _ hn]
      exact hc
  · intro n c hc
    by_cases hn : n = n0
    · subst hn
      rw [mapGet_mapSet_self] at hc
      rw [← Option.some.inj hc]
      exact hname
    · rw [mapGet_mapSet_ne _ _ _ _ hn] at hc
      exact h3 n c hc

/-- Invariant preservation, clearing shape: the client at `n0` is replaced,
the record at `n0` is removed (others untouched), and the enrolled ghost is
cleared at `n0`. -/
theorem lifeInv_clear (s : MgrState) (n0 : Option String) (cfg0 : MCPServerConfig)
    (st0 : MCPClientState) (recs' : RecMap) (cf ef : Option String → Bool)
    (hInv : LifeInv s) (hname : cfg0.name = n0)
    (hself : mapGet recs' n0 = none)
    (hother : ∀ m, m ≠ n0 → mapGet recs' m = mapGet s.disconnectedServers m)
    (hefself : ef n0 = false)
    (hefother : ∀ m, m ≠ n0 → ef m = s.enrolledFailSince m) :
    LifeInv { clients := mapSet s.clients n0 ⟨cfg0, st0⟩
              disconnectedServers := recs'
              claimFailedSince := cf
              enrolledFailSince := ef } := by
  obtain ⟨h1, h2, h3⟩ := hInv
  refine ⟨?_, ?_, ?_⟩
  · intro n
    by_cases hn : n = n0
    · subst hn
      simp [hself, hefself]
    · show (mapGet recs' n).isSome = true ↔ ef n = true
      rw [hother n hn, hefother n hn]
      exact h1 n
  · intro n hf
    replace hf : ef n = true := hf
    by_cases hn : n = n0
    · subst hn
      rw [hefself] at hf
      cases hf
    · rw [show ef n = s.enrolledFailSince n from hefother n hn] at hf
      obtain ⟨c, hc, hcc⟩ := h2 n hf
      refine ⟨c, ?_, hcc⟩
      show mapGet (mapSet s.clients n0 ⟨cfg0, st0⟩) n = some c
      rw [mapGet_mapSet_ne _ _ _ _ hn]
      exact hc
  · intro n c hc
    by_cases hn : n = n0
    · subst hn
      rw [mapGet_mapSet_self] at hc
      rw [← Option.some.inj hc]
      exact hname
    · rw [mapGet_mapSet_ne _ _ _ _ hn] at hc
      exact h3 n c hc

/-- Invariant preservation, frame shape: the client at `n0` is replaced
(disconnected whenever `n0` is enrolled); the record map and the enrolled
ghost are untouched. -/
theorem lifeInv_frame (s : MgrState) (n0 : Option String) (cfg0 : MCPServerConfig)
    (st0 : MCPClientState) (cf : Option String → Bool)
    (hInv : LifeInv s) (hname : cfg0.name = n0)
    (hpres : s.enrolledFailSince n0 = true → st0.isConnected = false) :
    LifeInv { clients := mapSet s.clients n0 ⟨cfg0, st0⟩
              disconnectedServers := s.disconnectedServers
              claimFailedSince := cf
              enrolledFailSince := s.enrolledFailSince } := by
  obtain ⟨h1, h2, h3⟩ := hInv
  refine ⟨h1, ?_, ?_⟩
  · intro n hf
    by_cases hn : n = n0
    · subst hn
      exact ⟨⟨cfg0, st0⟩, by simp [mapGet_mapSet_self], hpres hf⟩
    · obtain ⟨c, hc, hcc⟩ := h2 n hf
      exact ⟨c, by rw [mapGet_mapSet_ne _ _ _ _ hn]; exact hc, hcc⟩
  · intro n c hc
    by_cases hn : n = n0
    · subst hn
      rw [mapGet_mapSet_self] at hc
      rw [← Option.some.inj hc]
      exact hname
    · rw [mapGet_mapSet_ne _ _ _ _ hn] at hc
      exact h3 n c hc

end MCPManager

namespace MCPManager

theorem stepE_query_none (s : MgrState) (n : Option String) (env : MCPClient.QueryEnv)
    (ps : JSObj) (now : Nat) (h : mapGet s.clients n = none) :
    stepE s (.queryExec n env ps now) = (s, []) := by
  simp [stepE, h]

/-- `LifeInv` ignores the claim-level ghost flag. -/
theorem lifeInv_claim_irrel (s : MgrState) (cf : Option String → Bool)
    (h : LifeInv s) : LifeInv { s with claimFailedSince := cf } := h

/-- One lifecycle event preserves the invariant. -/
theorem lifeInv_step (s : MgrState) (e : MEv) (hInv : LifeInv s) :
    LifeInv (step s e) := by
  obtain ⟨h1, h2, h3⟩ := hInv
  cases e with
  | add cfg =>
    show LifeInv (stepE s (.add cfg)).1
    rw [stepE_add]
    exact lifeInv_frame s cfg.name cfg freshClientState s.claimFailedSince
      ⟨h1, h2, h3⟩ rfl (fun _ => rfl)
  | initConnect n env now =>
    show LifeInv (stepE s (.initConnect n env now)).1
    cases hcl : mapGet s.clients n with
    | none =>
      rw [stepE_init_none s n env now hcl]
      exact ⟨h1, h2, h3⟩
    | some c =>
      have hname := h3 n c hcl
      by_cases hc : c.st.isConnected = true
      · rw [stepE_init_connected s n env now c hcl hc]
        exact ⟨h1, h2, h3⟩
      · have hcf : c.st.isConnected = false := by
          cases hx : c.st.isConnected
          · rfl
          · exact absurd hx hc
        rcases connect_cases c.config env c.st with
          ⟨ht, hst, hev, hnok⟩ | ⟨ht, hst, hok, hev⟩
        · rw [stepE_init_threw s n env now c hcl hcf ht]
          exact lifeInv_enroll s n c.config (MCPClient.connect c.config env c.st).st
            (markServerAsDisconnected n now s.disconnectedServers)
            (setFlag s.claimFailedSince n true) (setFlag s.enrolledFailSince n true)
            ⟨h1, h2, h3⟩ hname (by rw [hst, hcf])
            (mark_get_self n now s.disconnectedServers)
            (fun m hm => mark_get_ne n m now s.disconnectedServers hm)
            (setFlag_self _ _ _) (fun m hm => setFlag_ne _ _ _ _ hm)
        · have hev' : (MCPClient.connect c.config env c.st).events = [.onReconnect n] := by
            rw [hev, if_pos hcf, hname]
          rw [stepE_init_ok s n env now c hcl hcf ht hev']
          exact lifeInv_clear s n c.config (MCPClient.connect c.config env c.st).st
            (mapDelete (mapDelete s.disconnectedServers n) n)
            (setFlag (setFlag s.claimFailedSince n false) n false)
            (setFlag (setFlag s.enrolledFailSince n false) n false)
            ⟨h1, h2, h3⟩ hname
            (mapGet_mapDelete_self _ n)
            (fun m hm => by
              rw [mapGet_mapDelete_ne _ _ _ hm, mapGet_mapDelete_ne _ _ _ hm])
            (setFlag_self _ _ _)
            (fun m hm => by rw [setFlag_ne _ _ _ _ hm, setFlag_ne _ _ _ _ hm])
  | queryExec n env ps now =>
    show LifeInv (stepE s (.queryExec n env ps now)).1
    cases hcl : mapGet s.clients n with
    | none =>
      rw [stepE_query_none s n env ps now hcl]
      exact ⟨h1, h2, h3⟩
    | some c =>
      have hname := h3 n c hcl
      rw [stepE_query s n env ps now c hcl]
      rcases executeQuery_out c.config env ps c.st with
        ⟨hev, hi⟩ | ⟨hev, hi, hic⟩ | ⟨hev, hi, hic, hok⟩ | ⟨hev, hi, hic, hok⟩
      · show LifeInv _
        rw [hev, applyCallbacks_nil]
        refine lifeInv_frame s n c.config
          (MCPClient.executeQuery c.config env ps c.st).2.1 _ ⟨h1, h2, h3⟩ hname ?_
        intro hf
        obtain ⟨c', hc', hcc⟩ := h2 n hf
        rw [hcl] at hc'
        rw [hi, Option.some.inj hc']
        exact hcc
      · rw [hname] at hev
        rw [hev, applyCallbacks_disc]
        exact lifeInv_enroll s n c.config
          (MCPClient.executeQuery c.config env ps c.st).2.1
          (markServerAsDisconnected n now s.disconnectedServers) _
          (setFlag s.enrolledFailSince n true)
          ⟨h1, h2, h3⟩ hname hi
          (mark_get_self n now s.disconnectedServers)
          (fun m hm => mark_get_ne n m now s.disconnectedServers hm)
          (setFlag_self _ _ _) (fun m hm => setFlag_ne _ _ _ _ hm)
      · rw [hname] at hev
        rw [hev, applyCallbacks_reco]
        exact lifeInv_clear s n c.config
          (MCPClient.executeQuery c.config env ps c.st).2.1
          (mapDelete s.disconnectedServers n) _
          (setFlag s.enrolledFailSince n false)
          ⟨h1, h2, h3⟩ hname
          (mapGet_mapDelete_self _ n)
          (fun m hm => mapGet_mapDelete_ne _ _ _ hm)
          (setFlag_self _ _ _) (fun m hm => setFlag_ne _ _ _ _ hm)
      · rw [hname] at hev
        rw [hev, applyCallbacks_reco_disc]
        exact lifeInv_enroll s n c.config
          (MCPClient.executeQuery c.config env ps c.st).2.1
          (markServerAsDisconnected n now (mapDelete s.disconnectedServers n)) _
          (setFlag (setFlag s.enrolledFailSince n false) n true)
          ⟨h1, h2, h3⟩ hname hi
          (mark_get_self n now _)
          (fun m hm => by
            rw [mark_get_ne n m now _ hm, mapGet_mapDelete_ne _ _ _ hm])
          (setFlag_self _ _ _)
          (fun m hm => by rw [setFlag_ne _ _ _ _ hm, setFlag_ne _ _ _ _ hm])
  | healthCheck n listOk now =>
    show LifeInv (stepE s (.healthCheck n listOk now)).1
    cases hcl : mapGet s.clients n with
    | none =>
      rw [stepE_health_none s n listOk now hcl]
      exact ⟨h1, h2, h3⟩
    | some c =>
      have hname := h3 n c hcl
      by_cases hc : c.st.isConnected = true
      · rw [stepE_health_conn s n listOk now c hcl hc]
        rcases checkHealth_out c.config listOk c.st hc with ⟨hev, hi⟩ | ⟨hev, hi⟩
        · rw [hev, applyCallbacks_nil]
          refine lifeInv_frame s n c.config
            (MCPClient.checkHealth c.config listOk c.st).2.1 _ ⟨h1, h2, h3⟩ hname ?_
          intro hf
          obtain ⟨c', hc', hcc⟩ := h2 n hf
          rw [hcl] at hc'
          rw [← Option.some.inj hc'] at hcc
          rw [hcc] at hc
          cases hc
        · rw [hname] at hev
          rw [hev, applyCallbacks_disc]
          exact lifeInv_enroll s n c.config
            (MCPClient.checkHealth c.config listOk c.st).2.1
            (markServerAsDisconnected n now s.disconnectedServers) _
            (setFlag s.enrolledFailSince n true)
            ⟨h1, h2, h3⟩ hname hi
            (mark_get_self n now s.disconnectedServers)
            (fun m hm => mark_get_ne n m now s.disconnectedServers hm)
            (setFlag_self _ _ _) (fun m hm => setFlag_ne _ _ _ _ hm)
      · have hcf : c.st.isConnected = false := by
          cases hx : c.st.isConnected
          · rfl
          · exact absurd hx hc
        rw [stepE_health_disc s n listOk now c hcl hcf]
        exact ⟨h1, h2, h3⟩
  | retryTick n env now =>
    show LifeInv (stepE s (.retryTick n env now)).1
    cases hr : mapGet s.disconnectedServers n with
    | none =>
      rw [stepE_retry_none s n env now hr]
      exact ⟨h1, h2, h3⟩
    | some r =>
      by_cases hdue : now < r.lastAttempt + r.nextRetryDelay
      · rw [stepE_retry_notdue s n env now r hr hdue]
        exact ⟨h1, h2, h3⟩
      · have hen : s.enrolledFailSince n = true := (h1 n).mp (by rw [hr]; rfl)
        obtain ⟨c0, hc0, hcc0⟩ := h2 n hen
        cases hcl : mapGet s.clients n with
        | none =>
          rw [hcl] at hc0
          cases hc0
        | some c =>
          have hceq : c = c0 := by
            rw [hcl] at hc0
            exact Option.some.inj hc0
          have hcf : c.st.isConnected = false := by rw [hceq]; exact hcc0
          have hname := h3 n c hcl
          rcases connect_cases c.config env c.st with
            ⟨ht, hst, hev, hnok⟩ | ⟨ht, hst, hok, hev⟩
          · rw [stepE_retry_threw s n env now r hr hdue c hcl ht]
            exact lifeInv_enroll s n c.config (MCPClient.connect c.config env c.st).st
              (mapSet s.disconnectedServers n (reconnectFailStep r now)) _
              (setFlag s.enrolledFailSince n true)
              ⟨h1, h2, h3⟩ hname (by rw [hst, hcf])
              (by rw [mapGet_mapSet_self]; rfl)
              (fun m hm => mapGet_mapSet_ne _ _ _ _ hm)
              (setFlag_self _ _ _) (fun m hm => setFlag_ne _ _ _ _ hm)
          · have hev' : (MCPClient.connect c.config env c.st).events = [.onReconnect n] := by
              rw [hev, if_pos hcf, hname]
            rw [stepE_retry_ok s n env now r hr hdue c hcl ht hev']
            exact lifeInv_clear s n c.config (MCPClient.connect c.config env c.st).st
              (mapDelete (mapDelete s.disconnectedServers n) n) _
              (setFlag (setFlag s.enrolledFailSince n false) n false)
              ⟨h1, h2, h3⟩ hname
              (mapGet_mapDelete_self _ n)
              (fun m hm => by
                rw [mapGet_mapDelete_ne _ _ _ hm, mapGet_mapDelete_ne _ _ _ hm])
              (setFlag_self _ _ _)
              (fun m hm => by rw [setFlag_ne _ _ _ _ hm, setFlag_ne _ _ _ _ hm])

/-- The invariant holds in every reachable state. -/
theorem lifeInv_run (evs : List MEv) : LifeInv (run evs) := by
  have hgen : ∀ (l : List MEv) (s : MgrState), LifeInv s → LifeInv (l.foldl step s) := by
    intro l
    induction l with
    | nil => intro s hs; exact hs
    | cons e rest ih =>
      intro s hs
      exact ih (step s e) (lifeInv_step s e hs)
  exact hgen evs initialMgr lifeInv_initial

end MCPManager

namespace MCPManager

/-- The registry invariant exactly as the claim states it: a record exists
iff the server is registered, Disconnected, and has failed at least once —
in any way, a failed lazy connect included — since its last successful
connect. -/
def ClaimInvariant (s : MgrState) : Prop :=
  ∀ n, (mapGet s.disconnectedServers n).isSome = true ↔
    ((∃ c, mapGet s.clients n = some c ∧ c.st.isConnected = false) ∧
      s.claimFailedSince n = true)

/-- Which events constitute a successful reconnect of server `n` from state
`s`: a startup init whose connect resolves, a query whose lazy connect ran
(the client was not connected) and resolved, or a scheduled retry whose
connect resolves. -/
def ReconnectSucceeded (s : MgrState) (e : MEv) (n : Option String) : Prop :=
  match e with
  | .add _ => False
  | .healthCheck _ _ _ => False
  | .initConnect m env _ => m = n ∧ connectSucceeds env
  | .queryExec m env _ _ => m = n ∧ connectSucceeds env.connectEnv ∧
      ∃ c, mapGet s.clients m = some c ∧ c.st.isConnected = false
  | .retryTick m env _ => m = n ∧ connectSucceeds env

/-- A reconnection record disappears across a step only through a
successful reconnect. -/
theorem removal_only_on_success (s : MgrState) (e : MEv) (n : Option String)
    (hInv : LifeInv s)
    (hpres : (mapGet s.disconnectedServers n).isSome = true)
    (habs : (mapGet (step s e).disconnectedServers n).isSome = false) :
    ReconnectSucceeded s e n := by
  obtain ⟨h1, h2, h3⟩ := hInv
  cases e with
  | add cfg =>
    have hrec : (step s (.add cfg)).disconnectedServers = s.disconnectedServers := by
      show (stepE s (.add cfg)).1.disconnectedServers = _
      rw [stepE_add]
    rw [hrec, hpres] at habs
    cases habs
  | initConnect m env now =>
    cases hcl : mapGet s.clients m with
    | none =>
      have hrec : (step s (.initConnect m env now)).disconnectedServers =
          s.disconnectedServers := by
        show (stepE s (.initConnect m env now)).1.disconnectedServers = _
        rw [stepE_init_none s m env now hcl]
      rw [hrec, hpres] at habs
      cases habs
    | some c =>
      have hname := h3 m c hcl
      by_cases hc : c.st.isConnected = true
      · have hrec : (step s (.initConnect m env now)).disconnectedServers =
            s.disconnectedServers := by
          show (stepE s (.initConnect m env now)).1.disconnectedServers = _
          rw [stepE_init_connected s m env now c hcl hc]
        rw [hrec, hpres] at habs
        cases habs
      · have hcf : c.st.isConnected = false := by
          cases hx : c.st.isConnected
          · rfl
          · exact absurd hx hc
        rcases connect_cases c.config env c.st with
          ⟨ht, hst, hev, hnok⟩ | ⟨ht, hst, hok, hev⟩
        · have hrec : (step s (.initConnect m env now)).disconnectedServers =
              markServerAsDisconnected m now s.disconnectedServers := by
            show (stepE s (.initConnect m env now)).1.disconnectedServers = _
            rw [stepE_init_threw s m env now c hcl hcf ht]
          by_cases hn : n = m
          · subst hn
            rw [hrec] at habs
            rw [mark_get_self n now s.disconnectedServers] at habs
            cases habs
          · rw [hrec, mark_get_ne m n now s.disconnectedServers hn, hpres] at habs
            cases habs
        · by_cases hn : n = m
          · subst hn
            exact ⟨rfl, hok⟩
          · have hev' : (MCPClient.connect c.config env c.st).events =
                [.onReconnect m] := by rw [hev, if_pos hcf, hname]
            have hrec : (step s (.initConnect m env now)).disconnectedServers =
                mapDelete (mapDelete s.disconnectedServers m) m := by
              show (stepE s (.initConnect m env now)).1.disconnectedServers = _
              rw [stepE_init_ok s m env now c hcl hcf ht hev']
            rw [hrec, mapGet_mapDelete_ne _ _ _ hn, mapGet_mapDelete_ne _ _ _ hn,
              hpres] at habs
            cases habs
  | queryExec m env ps now =>
    cases hcl : mapGet s.clients m with
    | none =>
      have hrec : (step s (.queryExec m env ps now)).disconnectedServers =
          s.disconnectedServers := by
        show (stepE s (.queryExec m env ps now)).1.disconnectedServers = _
        rw [stepE_query_none s m env ps now hcl]
      rw [hrec, hpres] at habs
      cases habs
    | some c =>
      have hname := h3 m c hcl
      have hq := stepE_query s m env ps now c hcl
      rcases executeQuery_out c.config env ps c.st with
        ⟨hev, hi⟩ | ⟨hev, hi, hic⟩ | ⟨hev, hi, hic, hok⟩ | ⟨hev, hi, hic, hok⟩
      · have hrec : (step s (.queryExec m env ps now)).disconnectedServers =
            s.disconnectedServers := by
          show (stepE s (.queryExec m env ps now)).1.disconnectedServers = _
          rw [hq, hev, applyCallbacks_nil]
        rw [hrec, hpres] at habs
        cases habs
      · rw [hname] at hev
        have hrec : (step s (.queryExec m env ps now)).disconnectedServers =
            markServerAsDisconnected m now s.disconnectedServers := by
          show (stepE s (.queryExec m env ps now)).1.disconnectedServers = _
          rw [hq, hev, applyCallbacks_disc]
        by_cases hn : n = m
        · subst hn
          rw [hrec, mark_get_self n now s.disconnectedServers] at habs
          cases habs
        · rw [hrec, mark_get_ne m n now s.disconnectedServers hn, hpres] at habs
          cases habs
      · by_cases hn : n = m
        · subst hn
          exact ⟨rfl, hok, c, hcl, hic⟩
        · rw [hname] at hev
          have hrec : (step s (.queryExec m env ps now)).disconnectedServers =
              mapDelete s.disconnectedServers m := by
            show (stepE s (.queryExec m env ps now)).1.disconnectedServers = _
            rw [hq, hev, applyCallbacks_reco]
          rw [hrec, mapGet_mapDelete_ne _ _ _ hn, hpres] at habs
          cases habs
      · rw [hname] at hev
        have hrec : (step s (.queryExec m env ps now)).disconnectedServers =
            markServerAsDisconnected m now (mapDelete s.disconnectedServers m) := by
          show (stepE s (.queryExec m env ps now)).1.disconnectedServers = _
          rw [hq, hev, applyCallbacks_reco_disc]
        by_cases hn : n = m
        · subst hn
          rw [hrec, mark_get_self n now _] at habs
          cases habs
        · rw [hrec, mark_get_ne m n now _ hn, mapGet_mapDelete_ne _ _ _ hn,
            hpres] at habs
          cases habs
  | healthCheck m listOk now =>
    cases hcl : mapGet s.clients m with
    | none =>
      have hrec : (step s (.healthCheck m listOk now)).disconnectedServers =
          s.disconnectedServers := by
        show (stepE s (.healthCheck m listOk now)).1.disconnectedServers = _
        rw [stepE_health_none s m listOk now hcl]
      rw [hrec, hpres] at habs
      cases habs
    | some c =>
      have hname := h3 m c hcl
      by_cases hc : c.st.isConnected = true
      · rcases checkHealth_out c.config listOk c.st hc with ⟨hev, hi⟩ | ⟨hev, hi⟩
        · have hrec : (step s (.healthCheck m listOk now)).disconnectedServers =
              s.disconnectedServers := by
            show (stepE s (.healthCheck m listOk now)).1.disconnectedServers = _
            rw [stepE_health_conn s m listOk now c hcl hc, hev, applyCallbacks_nil]
          rw [hrec, hpres] at habs
          cases habs
        · rw [hname] at hev
          have hrec : (step s (.healthCheck m listOk now)).disconnectedServers =
              markServerAsDisconnected m now s.disconnectedServers := by
            show (stepE s (.healthCheck m listOk now)).1.disconnectedServers = _
            rw [stepE_health_conn s m listOk now c hcl hc, hev, applyCallbacks_disc]
          by_cases hn : n = m
          · subst hn
            rw [hrec, mark_get_self n now s.disconnectedServers] at habs
            cases habs
          · rw [hrec, mark_get_ne m n now s.disconnectedServers hn, hpres] at habs
            cases habs
      · have hcf : c.st.isConnected = false := by
          cases hx : c.st.isConnected
          · rfl
          · exact absurd hx hc
        have hrec : (step s (.healthCheck m listOk now)).disconnectedServers =
            s.disconnectedServers := by
          show (stepE s (.healthCheck m listOk now)).1.disconnectedServers = _
          rw [stepE_health_disc s m listOk now c hcl hcf]
        rw [hrec, hpres] at habs
        cases habs
  | retryTick m env now =>
    cases hr : mapGet s.disconnectedServers m with
    | none =>
      have hrec : (step s (.retryTick m env now)).disconnectedServers =
          s.disconnectedServers := by
        show (stepE s (.retryTick m env now)).1.disconnectedServers = _
        rw [stepE_retry_none s m env now hr]
      rw [hrec, hpres] at habs
      cases habs
    | some r =>
      by_cases hdue : now < r.lastAttempt + r.nextRetryDelay
      · have hrec : (step s (.retryTick m env now)).disconnectedServers =
            s.disconnectedServers := by
          show (stepE s (.retryTick m env now)).1.disconnectedServers = _
          rw [stepE_retry_notdue s m env now r hr hdue]
        rw [hrec, hpres] at habs
        cases habs
      · have hen : s.enrolledFailSince m = true := (h1 m).mp (by rw [hr]; rfl)
        obtain ⟨c0, hc0, hcc0⟩ := h2 m hen
        cases hcl : mapGet s.clients m with
        | none =>
          rw [hcl] at hc0
          cases hc0
        | some c =>
          have hcf : c.st.isConnected = false := by
            rw [hcl] at hc0
            rw [Option.some.inj hc0]
            exact hcc0
          have hname := h3 m c hcl
          rcases connect_cases c.config env c.st with
            ⟨ht, hst, hev, hnok⟩ | ⟨ht, hst, hok, hev⟩
          · have hrec : (step s (.retryTick m env now)).disconnectedServers =
                mapSet s.disconnectedServers m (reconnectFailStep r now) := by
              show (stepE s (.retryTick m env now)).1.disconnectedServers = _
              rw [stepE_retry_threw s m env now r hr hdue c hcl ht]
            by_cases hn : n = m
            · subst hn
              rw [hrec, mapGet_mapSet_self] at habs
              cases habs
            · rw [hrec, mapGet_mapSet_ne _ _ _ _ hn, hpres] at habs
              cases habs
          · by_cases hn : n = m
            · subst hn
              exact ⟨rfl, hok⟩
            · have hev' : (MCPClient.connect c.config env c.st).events =
                  [.onReconnect m] := by rw [hev, if_pos hcf, hname]
              have hrec : (step s (.retryTick m env now)).disconnectedServers =
                  mapDelete (mapDelete s.disconnectedServers m) m := by
                show (stepE s (.retryTick m env now)).1.disconnectedServers = _
                rw [stepE_retry_ok s m env now r hr hdue c hcl ht hev']
              rw [hrec, mapGet_mapDelete_ne _ _ _ hn, mapGet_mapDelete_ne _ _ _ hn,
                hpres] at habs
              cases habs

end MCPManager

/-- The registered server of the registry counterexample. -/
def cfgA : MCPServerConfig := ⟨some "A", some "uA", "", ["alpha"], none, none⟩

/-- A query environment whose lazy connect rejects (both transports fail). -/
def envQFail : MCPClient.QueryEnv :=
  ⟨⟨true, false, false, "ECONNREFUSED"⟩, .ok none, .ok 0⟩

/-- The counterexample trace: register "A", then dispatch one query to it
while it has never connected; the lazy connect fails. -/
def cexTrace : List MCPManager.MEv :=
  [.add cfgA, .queryExec (some "A") envQFail [] 0]

/-- C2 counterexample: after a failed lazy connect inside `executeQuery`,
server "A" is registered, Disconnected, and has failed since its last
successful connect — yet the reconnection registry holds no record for it,
so the claimed iff-invariant is false in this reachable state (the code
paths through `executeQuery`'s early `connect` failure return without
enrolling). -/
theorem reconnection_registry_cex :
    (MCPManager.run cexTrace).disconnectedServers = [] ∧
    mapGet (MCPManager.run cexTrace).clients (some "A") =
      some ⟨cfgA, ⟨true, false⟩⟩ ∧
    (MCPManager.run cexTrace).claimFailedSince (some "A") = true ∧
    ¬ MCPManager.ClaimInvariant (MCPManager.run cexTrace) := by
  refine ⟨by decide, by decide, by decide, ?_⟩
  intro h
  have h2 := (h (some "A")).mpr
    ⟨⟨⟨cfgA, ⟨true, false⟩⟩, by decide, rfl⟩, by decide⟩
  exact absurd h2 (by decide)

/-- C2 (amended): in every reachable state, a reconnection record exists for
a server iff that server's enrolled-failure flag is set — it has, since its
last successful connect, lost an established connection or failed a connect
attempt made by `initializeAllServers` or the reconnection scheduler (a
failed lazy connect inside `executeQuery` does *not* enroll it) — and every
such server is registered and Disconnected; `markServerAsDisconnected` on an
already-enrolled server changes nothing (in particular `attemptCount`); and
a record disappears across a step only through a successful reconnect. -/
theorem reconnection_registry_amended :
    (∀ evs : List MCPManager.MEv, ∀ n,
      (mapGet (MCPManager.run evs).disconnectedServers n).isSome = true ↔
        ((MCPManager.run evs).enrolledFailSince n = true ∧
          ∃ c, mapGet (MCPManager.run evs).clients n = some c ∧
            c.st.isConnected = false)) ∧
    (∀ (n : Option String) (now : Nat) (recs : RecMap),
      (mapGet recs n).isSome = true →
      MCPManager.markServerAsDisconnected n now recs = recs) ∧
    (∀ (evs : List MCPManager.MEv) (e : MCPManager.MEv) (n : Option String),
      (mapGet (MCPManager.run evs).disconnectedServers n).isSome = true →
      (mapGet (MCPManager.step (MCPManager.run evs) e).disconnectedServers n).isSome =
        false →
      MCPManager.ReconnectSucceeded (MCPManager.run evs) e n) := by
  refine ⟨?_, ?_, ?_⟩
  · intro evs n
    obtain ⟨h1, h2, h3⟩ := MCPManager.lifeInv_run evs
    constructor
    · intro hp
      exact ⟨(h1 n).mp hp, h2 n ((h1 n).mp hp)⟩
    · intro hpair
      exact (h1 n).mpr hpair.1
  · intro n now recs h
    exact MCPManager.mark_noop_of_present n now recs h
  · intro evs e n hp ha
    exact MCPManager.removal_only_on_success (MCPManager.run evs) e n
      (MCPManager.lifeInv_run evs) hp ha

/-- The registered server of the amended-registry witness. -/
def cfgB2 : MCPServerConfig := ⟨some "B", some "uB", "", ["beta"], none, none⟩

/-- Startup connect failure environment for the witness. -/
def envFailW : ConnectEnv := ⟨true, false, false, "ECONNREFUSED"⟩

/-- Scheduled-retry success environment for the witness. -/
def envOkW : ConnectEnv := ⟨true, true, false, ""⟩

/-- Witness trace: register "B", startup init fails (enrolling it). -/
def evsW : List MCPManager.MEv := [.add cfgB2, .initConnect (some "B") envFailW 0]

/-- Witness for `reconnection_registry_amended`: after the failed startup
connect, "B" holds a record and is Disconnected; re-marking an enrolled
record (attemptCount 1) changes nothing; and the due scheduled retry that
removes the record is a successful reconnect. -/
theorem reconnection_registry_amended_witness :
    (mapGet (MCPManager.run evsW).disconnectedServers (some "B")).isSome = true ∧
    MCPManager.markServerAsDisconnected (some "B") 99
        [(some "B", ⟨some "B", 0, 1, 10000⟩)] =
      [(some "B", ⟨some "B", 0, 1, 10000⟩)] ∧
    MCPManager.ReconnectSucceeded (MCPManager.run evsW)
      (.retryTick (some "B") envOkW 10000) (some "B") := by
  refine ⟨by decide, ?_, ?_⟩
  · exact reconnection_registry_amended.2.1 (some "B") 99
      [(some "B", ⟨some "B", 0, 1, 10000⟩)] (by decide)
  · exact reconnection_registry_amended.2.2 evsW
      (.retryTick (some "B") envOkW 10000) (some "B") (by decide) (by decide)
